import Mathlib

/-!
Low-level hardware-test console (`apps/hwtest/lowlevel/lowlevel.cpp`).

A shallow embedding of the command interpreter: C strings are byte buffers,
every memory read is bounds-checked, and a read outside the buffer or through
a null pointer is a `Fault` that stops the run.
-/

namespace Hwtest

/-! ## C strings and memory faults -/

/-- Ways a run can leave defined behaviour. -/
inductive Fault where
  | nullDeref
  | outOfBounds
  | nonTermination
  deriving DecidableEq, Repr

/-- A non-null `const char *`: the bytes of the pointed-to object from the
pointee up to the last byte of the object. Reading past the list is a read
out of the object. `p + k` is `p.drop k`. -/
abbrev CPtr := List Nat

/-- Byte values of the characters of a string. -/
def bytes (s : String) : List Nat := s.toList.map Char.toNat

/-- A string literal object: its characters followed by the NUL terminator. -/
def lit (s : String) : CPtr := bytes s ++ [0]

/-- The read `p[i]` for a non-null pointer. -/
def idx (p : CPtr) (i : Nat) : Except Fault Nat :=
  match p[i]? with
  | some b => .ok b
  | none => .error .outOfBounds

/-- The read `p[i]` for a pointer that may be null. -/
def idxN (p : Option CPtr) (i : Nat) : Except Fault Nat :=
  match p with
  | none => .error .nullDeref
  | some q => idx q i

/-- The write `buf[i] = v`. -/
def store (buf : List Nat) (i : Nat) (v : Nat) : Except Fault (List Nat) :=
  if i < buf.length then .ok (buf.set i v) else .error .outOfBounds

/-- C library `strlen`: scans for the first NUL. -/
def strlen : CPtr → Except Fault Nat
  | [] => .error .outOfBounds
  | b :: p => if b = 0 then .ok 0 else (strlen p).map (· + 1)

/-- The call `strlen(p)` for a pointer that may be null. -/
def strlenN : Option CPtr → Except Fault Nat
  | none => .error .nullDeref
  | some p => strlen p

/-- C library `strcmp` on non-null pointers: the difference of the first
differing bytes, 0 when both strings end together. -/
def strcmpP : CPtr → CPtr → Except Fault Int
  | [], _ => .error .outOfBounds
  | _ :: _, [] => .error .outOfBounds
  | a :: p, b :: q =>
    if a ≠ b then .ok ((a : Int) - (b : Int))
    else if a = 0 then .ok 0
    else strcmpP p q

/-- C library `strcmp`; a null argument is dereferenced. -/
def strcmp (a b : Option CPtr) : Except Fault Int :=
  match a, b with
  | some p, some q => strcmpP p q
  | _, _ => .error .nullDeref

/-- Short-circuit `||` over conditions that read memory: the right operand is
evaluated only when the left one is false. -/
def cor (a b : Except Fault Bool) : Except Fault Bool :=
  match a with
  | .error e => .error e
  | .ok true => .ok true
  | .ok false => b

instance [DecidableEq ε] [DecidableEq α] : DecidableEq (Except ε α) := fun a b =>
  match a, b with
  | .ok x, .ok y =>
    if h : x = y then isTrue (congrArg Except.ok h) else isFalse (fun e => h (Except.ok.inj e))
  | .error x, .error y =>
    if h : x = y then isTrue (congrArg Except.error h) else isFalse (fun e => h (Except.error.inj e))
  | .ok _, .error _ => isFalse (fun e => Except.noConfusion e)
  | .error _, .ok _ => isFalse (fun e => Except.noConfusion e)

/-! ## The device: peripherals and console -/

/-- Modelled from the spec: `KDColor::RGB24` (kandinsky) is not part of the
source file; the LED takes a 24-bit RGB colour, kept here as the 24-bit word
the colour was built from. -/
structure KDColor where
  RGB24 ::
  rgb : Nat
  deriving DecidableEq, Repr

/-- Calls into the peripheral drivers (everything in `Ion` except the console). -/
inductive Op where
  | serialNumber
  | ledInit
  | ledShutdown
  | ledSetColor (c : KDColor)
  | displayInit
  | displayShutdown
  | backlightInit
  | backlightShutdown
  | backlightSetBrightness (b : Nat)
  | batteryVoltage
  | batteryIsCharging
  | keyDown (i : Nat)
  deriving DecidableEq, Repr

/-- The device as the interpreter sees it: what the hardware reports, the
state of the three switchable subsystems, the log of driver calls, and the
lines written to the console. -/
structure World where
  /-- The object `Ion::serialNumber()` points to. -/
  serial : CPtr
  /-- What `Ion::Battery::isCharging()` returns. -/
  charging : Bool
  /-- The text `convertFloatToText` produces for `Ion::Battery::voltage()`. -/
  voltageText : List Nat
  /-- The constant `Ion::Keyboard::NumberOfKeys`. -/
  NumberOfKeys : Nat
  /-- What `Ion::Keyboard::keyDown` returns for each key index. -/
  keys : Nat → Bool
  ledEnabled : Bool
  ledColor : KDColor
  displayEnabled : Bool
  backlightEnabled : Bool
  brightness : Nat
  ops : List Op
  console : List (List Nat)

/-- Modelled from the spec: `Ion::Console::writeLine` is not part of the source
file; it writes the NUL-terminated string as one response line. -/
def Ion.Console.writeLine (s : CPtr) (w : World) : Except Fault World :=
  match strlen s with
  | .error e => .error e
  | .ok n => .ok { w with console := w.console ++ [s.take n] }

/-- Modelled from the spec: the LED driver is not part of the source file;
`init` enables the LED subsystem. -/
def Ion.LED.Device.init (w : World) : World :=
  { w with ledEnabled := true, ops := w.ops ++ [.ledInit] }

/-- Modelled from the spec: `shutdown` disables the LED subsystem. -/
def Ion.LED.Device.shutdown (w : World) : World :=
  { w with ledEnabled := false, ops := w.ops ++ [.ledShutdown] }

/-- Modelled from the spec: `setColor` sets the LED colour. -/
def Ion.LED.setColor (c : KDColor) (w : World) : World :=
  { w with ledColor := c, ops := w.ops ++ [.ledSetColor c] }

/-- Modelled from the spec: the display driver is not part of the source file;
`init` enables the display subsystem. -/
def Ion.Display.Device.init (w : World) : World :=
  { w with displayEnabled := true, ops := w.ops ++ [.displayInit] }

/-- Modelled from the spec: `shutdown` disables the display subsystem. -/
def Ion.Display.Device.shutdown (w : World) : World :=
  { w with displayEnabled := false, ops := w.ops ++ [.displayShutdown] }

/-- Modelled from the spec: the backlight driver is not part of the source
file; `init` enables the backlight. -/
def Ion.Backlight.Device.init (w : World) : World :=
  { w with backlightEnabled := true, ops := w.ops ++ [.backlightInit] }

/-- Modelled from the spec: `shutdown` disables the backlight. -/
def Ion.Backlight.Device.shutdown (w : World) : World :=
  { w with backlightEnabled := false, ops := w.ops ++ [.backlightShutdown] }

/-- Modelled from the spec: `setBrightness` sets the backlight brightness. -/
def Ion.Backlight.setBrightness (b : Nat) (w : World) : World :=
  { w with brightness := b, ops := w.ops ++ [.backlightSetBrightness b] }

/-- Modelled from the spec: `Ion::serialNumber` reads the device serial. -/
def Ion.serialNumber (w : World) : CPtr × World :=
  (w.serial, { w with ops := w.ops ++ [.serialNumber] })

/-- Modelled from the spec: `Ion::Battery::isCharging` reads the charging state. -/
def Ion.Battery.isCharging (w : World) : Bool × World :=
  (w.charging, { w with ops := w.ops ++ [.batteryIsCharging] })

/-- Modelled from the spec: `Ion::Battery::voltage` followed by
`convertFloatToText`: the decimal text of the battery voltage. -/
def Ion.Battery.voltage (w : World) : List Nat × World :=
  (w.voltageText, { w with ops := w.ops ++ [.batteryVoltage] })

/-- Modelled from the spec: `Ion::Keyboard::keyDown` polls one key. -/
def Ion.Keyboard.keyDown (i : Nat) (w : World) : Bool × World :=
  (w.keys i, { w with ops := w.ops ++ [.keyDown i] })

/-! ## Command handlers and dispatch -/

/-- The type `CommandFunction`: `void (*)(const char * input)`, acting on the device. -/
abbrev CommandFunction := Option CPtr → World → Except Fault World

/-- The class `CommandHandler`: a name and a function, either of which may be null. -/
structure CommandHandler where
  m_name : Option CPtr
  m_function : Option CommandFunction

/-- The method `CommandHandler::valid`. -/
def CommandHandler.valid (h : CommandHandler) : Bool :=
  h.m_name.isSome && h.m_function.isSome

/-- The loop of `CommandHandler::matches`, with `c` and `n` the two moving
pointers. Each round reads `*n`, then `*c`; the recursion follows `n++`. -/
def matchesLoop : CPtr → CPtr → Except Fault Bool
  | _, [] => .error .outOfBounds
  | [], _ :: _ => .error .outOfBounds
  | cv :: c, nv :: n =>
    if nv = 0 ∧ (cv = 0 ∨ cv = 61) then .ok true
    else if cv ≠ nv then .ok false
    else matchesLoop c n

/-- The method `CommandHandler::matches`. -/
def CommandHandler.matches (h : CommandHandler) (command : CPtr) : Except Fault Bool :=
  match h.m_name with
  | none => .error .nullDeref
  | some n => matchesLoop command n

/-- The method `CommandHandler::handle`: the flag returned and the device afterwards. -/
def CommandHandler.handle (h : CommandHandler) (command : CPtr) (w : World) :
    Except Fault (Bool × World) :=
  match h.matches command with
  | .error e => .error e
  | .ok false => .ok (false, w)
  | .ok true =>
    match strlenN h.m_name with
    | .error e => .error e
    | .ok nameLength =>
      match idx command nameLength with
      | .error e => .error e
      | .ok b =>
        match h.m_function with
        | none => .error .nullDeref
        | some f =>
          if b = 61 then (f (some (command.drop (nameLength + 1))) w).map (fun w1 => (true, w1))
          else (f none w).map (fun w1 => (true, w1))

/-- The loop of `CommandList::dispatch` over the entries from `handler` on. -/
def dispatchLoop : List CommandHandler → CPtr → World → Except Fault World
  | [], _, _ => .error .outOfBounds
  | h :: rest, command, w =>
    if h.valid then
      match h.handle command w with
      | .error e => .error e
      | .ok (true, w1) => .ok w1
      | .ok (false, w1) => dispatchLoop rest command w1
    else Ion.Console.writeLine (lit "NOT_FOUND") w

/-- The class `CommandList`. -/
structure CommandList where
  m_handlers : List CommandHandler

/-- The method `CommandList::dispatch`. -/
def CommandList.dispatch (l : CommandList) (command : CPtr) (w : World) : Except Fault World :=
  dispatchLoop l.m_handlers command w

/-! ## Handlers -/

/-- The literal `sOK`. -/
def sOK : CPtr := lit "OK"

/-- The literal `sSyntaxError`. -/
def sSyntaxError : CPtr := lit "SYNTAX_ERROR"

/-- The literal `sON`. -/
def sON : CPtr := lit "ON"

/-- The literal `sOFF`. -/
def sOFF : CPtr := lit "OFF"

/-- The handler `command_ping`. -/
def command_ping (input : Option CPtr) (w : World) : Except Fault World :=
  if input.isSome then Ion.Console.writeLine sSyntaxError w
  else Ion.Console.writeLine (lit "PONG") w

/-- BSD `strlcpy(buf + off, src, size)`: measures `src`, copies at most
`size - 1` of its characters and terminates the copy. -/
def strlcpy (buf : List Nat) (off : Nat) (src : CPtr) (size : Nat) : Except Fault (List Nat) :=
  (strlen src).bind fun n =>
    if size = 0 then .ok buf
    else if off + min n (size - 1) < buf.length then
      .ok (buf.take off ++ src.take (min n (size - 1)) ++ [0] ++ buf.drop (off + min n (size - 1) + 1))
    else .error .outOfBounds

/-- The handler `command_mcu_serial`. -/
def command_mcu_serial (input : Option CPtr) (w : World) : Except Fault World :=
  if input.isSome then Ion.Console.writeLine sSyntaxError w
  else
    (strlcpy (bytes "MCU_SERIAL=" ++ List.replicate (24 + 1) 0) 11 (Ion.serialNumber w).1 25).bind
      fun response => Ion.Console.writeLine response (Ion.serialNumber w).2

/-- The function `hexChar`, an `int8_t`: 48 is `'0'`, 57 is `'9'`, 65 is `'A'`, 70 is `'F'`. -/
def hexChar (c : Nat) : Int :=
  if 48 ≤ c ∧ c ≤ 57 then (c : Int) - 48
  else if 65 ≤ c ∧ c ≤ 70 then ((c : Int) - 65) + 10
  else -1

/-- The function `isHex`. -/
def isHex (c : Nat) : Bool := decide (hexChar c ≥ 0)

/-- The loop of `hexNumber` with the `uint32_t` accumulator `result`; the
`int8_t` digit is converted to `uint32_t` before the bitwise or. -/
def hexNumberLoop : CPtr → Nat → Except Fault Nat
  | [], _ => .error .outOfBounds
  | b :: s, result =>
    if b ≠ 0 then hexNumberLoop s (((result <<< 4) % 2 ^ 32) ||| (hexChar b % 2 ^ 32).toNat)
    else .ok result

/-- The function `hexNumber`. -/
def hexNumber (s : CPtr) : Except Fault Nat := hexNumberLoop s 0

/-- The pointer `input + k` for a pointer that may be null. -/
def advance (input : Option CPtr) (k : Nat) : Except Fault CPtr :=
  match input with
  | none => .error .nullDeref
  | some p => .ok (p.drop k)

/-- The handler `command_led`: 48 is `'0'`, 120 is `'x'`. -/
def command_led (input : Option CPtr) (w : World) : Except Fault World :=
  (strcmp input (some sON)).bind fun r1 =>
    if r1 = 0 then Ion.Console.writeLine sOK (Ion.LED.Device.init w)
    else (strcmp input (some sOFF)).bind fun r2 =>
      if r2 = 0 then Ion.Console.writeLine sOK (Ion.LED.Device.shutdown w)
      else
        (cor (.ok input.isNone) <|
         cor ((idxN input 0).map (· != 48)) <|
         cor ((idxN input 1).map (· != 120)) <|
         cor ((idxN input 2).map (fun c => !isHex c)) <|
         cor ((idxN input 3).map (fun c => !isHex c)) <|
         cor ((idxN input 4).map (fun c => !isHex c)) <|
         cor ((idxN input 5).map (fun c => !isHex c)) <|
         cor ((idxN input 6).map (fun c => !isHex c)) <|
         cor ((idxN input 7).map (fun c => !isHex c)) <|
         (idxN input 8).map (· != 0)).bind fun bad =>
          if bad then Ion.Console.writeLine sSyntaxError w
          else (advance input 2).bind fun s => (hexNumber s).bind fun hexColor =>
            Ion.Console.writeLine sOK (Ion.LED.setColor (KDColor.RGB24 hexColor) w)

/-- The handler `command_display`. -/
def command_display (input : Option CPtr) (w : World) : Except Fault World :=
  (strcmp input (some sON)).bind fun r1 =>
    if r1 = 0 then Ion.Console.writeLine sOK (Ion.Display.Device.init w)
    else (strcmp input (some sOFF)).bind fun r2 =>
      if r2 = 0 then Ion.Console.writeLine sOK (Ion.Display.Device.shutdown w)
      else Ion.Console.writeLine sSyntaxError w

/-- The handler `command_backlight`. -/
def command_backlight (input : Option CPtr) (w : World) : Except Fault World :=
  (strcmp input (some sON)).bind fun r1 =>
    if r1 = 0 then Ion.Console.writeLine sOK (Ion.Backlight.Device.init w)
    else (strcmp input (some sOFF)).bind fun r2 =>
      if r2 = 0 then Ion.Console.writeLine sOK (Ion.Backlight.Device.shutdown w)
      else
        (cor (.ok input.isNone) <|
         cor ((idxN input 0).map (· != 48)) <|
         cor ((idxN input 1).map (· != 120)) <|
         cor ((idxN input 2).map (fun c => !isHex c)) <|
         cor ((idxN input 3).map (fun c => !isHex c)) <|
         (idxN input 4).map (· != 0)).bind fun bad =>
          if bad then Ion.Console.writeLine sSyntaxError w
          else (advance input 2).bind fun s => (hexNumber s).bind fun brightness =>
            Ion.Console.writeLine sOK (Ion.Backlight.setBrightness brightness w)

/-- The handler `command_adc`: the response buffer holds `ADC=` and then the text the
formatter wrote, terminator included. -/
def command_adc (input : Option CPtr) (w : World) : Except Fault World :=
  if input.isSome then Ion.Console.writeLine sSyntaxError w
  else
    Ion.Console.writeLine (bytes "ADC=" ++ (Ion.Battery.voltage w).1 ++ [0]) (Ion.Battery.voltage w).2

/-- The handler `command_charge`. -/
def command_charge (input : Option CPtr) (w : World) : Except Fault World :=
  if input.isSome then Ion.Console.writeLine sSyntaxError w
  else if (Ion.Battery.isCharging w).1 then
    Ion.Console.writeLine (lit "CHARGE=ON") (Ion.Battery.isCharging w).2
  else Ion.Console.writeLine (lit "CHARGE=OFF") (Ion.Battery.isCharging w).2

/-- The `for` loop of `command_keyboard`. The counter `i` is a `uint8_t`, so
it takes at most 256 values: `rounds` counts the values not yet used, and a
loop still running after all of them repeats a state and never ends.
49 is `'1'`, 48 is `'0'`. -/
def keyboardLoop : Nat → Nat → List Nat → World → Except Fault (List Nat × World)
  | 0, i, result, w =>
    if i < w.NumberOfKeys then .error .nonTermination else .ok (result, w)
  | rounds + 1, i, result, w =>
    if i < w.NumberOfKeys then
      (store result (9 + i) (if (Ion.Keyboard.keyDown i w).1 then 49 else 48)).bind fun r =>
        keyboardLoop rounds ((i + 1) % 256) r (Ion.Keyboard.keyDown i w).2
    else .ok (result, w)

/-- The handler `command_keyboard`. -/
def command_keyboard (input : Option CPtr) (w : World) : Except Fault World :=
  if input.isSome then Ion.Console.writeLine sSyntaxError w
  else
    (keyboardLoop 256 0 (bytes "KEYBOARD=" ++ List.replicate (w.NumberOfKeys + 1) 0) w).bind fun rw =>
      (store rw.1 (9 + w.NumberOfKeys) 0).bind fun r => Ion.Console.writeLine r rw.2

/-- The table `handles`, sentinel included. -/
def handles : List CommandHandler :=
  [ ⟨some (lit "PING"), some command_ping⟩,
    ⟨some (lit "MCU_SERIAL"), some command_mcu_serial⟩,
    ⟨some (lit "LED"), some command_led⟩,
    ⟨some (lit "BACKLIGHT"), some command_backlight⟩,
    ⟨some (lit "ADC"), some command_adc⟩,
    ⟨some (lit "CHARGE"), some command_charge⟩,
    ⟨some (lit "KEYBOARD"), some command_keyboard⟩,
    ⟨some (lit "DISPLAY"), some command_display⟩,
    ⟨none, none⟩ ]

/-- The list `sCommandList`. -/
def sCommandList : CommandList := ⟨handles⟩

/-- A device at rest, for concrete runs: nothing enabled, nothing logged. -/
def World.idle : World :=
  { serial := lit "0123456789ABCDEF01234567", charging := false,
    voltageText := bytes "3.7000000", NumberOfKeys := 54, keys := fun _ => false,
    ledEnabled := false, ledColor := KDColor.RGB24 0, displayEnabled := false,
    backlightEnabled := false, brightness := 0, ops := [], console := [] }

/-! ## Specification vocabulary -/

/-- The sentence of the matcher contract: `c` begins with exactly the bytes of
`name`, and the byte right after them is the terminator (0) or `=` (61). -/
def BeginsWith (name : List Nat) (c : CPtr) : Prop :=
  name <+: c ∧ (c.get? name.length = some 0 ∨ c.get? name.length = some 61)

/-- The remainder of a line after its first `=` (61). -/
def afterFirstEq (c : CPtr) : CPtr := (c.dropWhile (fun b => b != 61)).drop 1

/-- A command table built from (name, function) pairs: each name becomes a
NUL-terminated string object, and the sentinel entry closes the table. -/
def mkTable (entries : List (List Nat × CommandFunction)) : List CommandHandler :=
  entries.map (fun e => ⟨some (e.1 ++ [0]), some e.2⟩) ++ [⟨none, none⟩]

/-- The names and functions registered in `handles`, in table order. -/
def registered : List (List Nat × CommandFunction) :=
  [ (bytes "PING", command_ping),
    (bytes "MCU_SERIAL", command_mcu_serial),
    (bytes "LED", command_led),
    (bytes "BACKLIGHT", command_backlight),
    (bytes "ADC", command_adc),
    (bytes "CHARGE", command_charge),
    (bytes "KEYBOARD", command_keyboard),
    (bytes "DISPLAY", command_display) ]

/-- The names of the commands that take no argument. -/
def noArgNames : List (List Nat) :=
  [bytes "PING", bytes "MCU_SERIAL", bytes "ADC", bytes "CHARGE", bytes "KEYBOARD"]

/-- An uppercase hexadecimal digit: `0`..`9` (48..57) or `A`..`F` (65..70). -/
def UpperHexDigit (c : Nat) : Prop := (48 ≤ c ∧ c ≤ 57) ∨ (65 ≤ c ∧ c ≤ 70)

instance (c : Nat) : Decidable (UpperHexDigit c) := by
  unfold UpperHexDigit
  infer_instance

/-- The value of an uppercase hexadecimal digit. -/
def hexDigitValue (c : Nat) : Nat := if c ≤ 57 then c - 48 else c - 55

/-- The number a string of hexadecimal digits denotes, most significant
digit first. -/
def hexValue : List Nat → Nat
  | [] => 0
  | d :: ds => hexDigitValue d * 16 ^ ds.length + hexValue ds

/-- The hexadecimal argument form: `0x` followed by exactly `n` uppercase
hexadecimal digits. -/
def HexForm (n : Nat) (a : List Nat) : Prop :=
  ∃ ds, a = bytes "0x" ++ ds ∧ ds.length = n ∧ ∀ d ∈ ds, UpperHexDigit d

/-- The argument grammar of `LED`: `ON`, `OFF`, or `0x` and six uppercase
hexadecimal digits. -/
def LedGrammar (a : List Nat) : Prop :=
  a = bytes "ON" ∨ a = bytes "OFF" ∨ HexForm 6 a

/-- The argument grammar of `BACKLIGHT`: `ON`, `OFF`, or `0x` and two
uppercase hexadecimal digits. -/
def BacklightGrammar (a : List Nat) : Prop :=
  a = bytes "ON" ∨ a = bytes "OFF" ∨ HexForm 2 a

/-- The LED part of the device: enabled flag and colour. -/
def World.led (w : World) : Bool × KDColor := (w.ledEnabled, w.ledColor)

/-- The backlight part of the device: enabled flag and brightness. -/
def World.backlight (w : World) : Bool × Nat := (w.backlightEnabled, w.brightness)

/-- The display part of the device: enabled flag. -/
def World.display (w : World) : Bool := w.displayEnabled

/-- The payload of the `KEYBOARD` response: one character per key index in
order, `1` (49) for a key that is down and `0` (48) for one that is up. -/
def keyBits (w : World) : List Nat :=
  (List.range w.NumberOfKeys).map (fun i => if w.keys i then 49 else 48)

instance (name : List Nat) (c : CPtr) : Decidable (BeginsWith name c) := by
  unfold BeginsWith
  infer_instance

/-! ## The matcher -/

/-- On any buffer, the matcher answers `true` exactly when the buffer begins
with the name followed by the terminator or `=`. -/
theorem matchesLoop_true_iff (name : List Nat) (h0 : 0 ∉ name) (c : CPtr) :
    matchesLoop c (name ++ [0]) = .ok true ↔ BeginsWith name c := by
  induction name generalizing c with
  | nil =>
    cases c with
    | nil => simp [matchesLoop, BeginsWith]
    | cons cv c =>
      by_cases h : cv = 0 ∨ cv = 61
      · simp [matchesLoop, BeginsWith, h]
      · have h1 : cv ≠ 0 := fun e => h (Or.inl e)
        have h2 : cv ≠ 61 := fun e => h (Or.inr e)
        simp [matchesLoop, BeginsWith, h1, h2]
  | cons a name ih =>
    have ha : a ≠ 0 := fun e => h0 (by simp [e])
    have hn : 0 ∉ name := fun e => h0 (by simp [e])
    cases c with
    | nil => simp [matchesLoop, BeginsWith]
    | cons cv c =>
      by_cases hcv : cv = a
      · subst hcv
        have := ih hn c
        simp only [List.cons_append, matchesLoop, ha, false_and, if_false, ne_eq,
          not_true_eq_false]
        show matchesLoop c (name ++ [0]) = .ok true ↔ _
        rw [this]
        simp [BeginsWith, List.cons_prefix_cons]
      · have hcv2 : a ≠ cv := fun e => hcv e.symm
        simp [matchesLoop, BeginsWith, ha, hcv, hcv2, List.cons_prefix_cons]

/-- On a buffer holding a terminator, the matcher always returns. -/
theorem matchesLoop_total (name : List Nat) (h0 : 0 ∉ name) (line junk : List Nat) :
    ∃ b, matchesLoop (line ++ 0 :: junk) (name ++ [0]) = .ok b := by
  induction name generalizing line with
  | nil =>
    cases line with
    | nil => exact ⟨true, by simp [matchesLoop]⟩
    | cons cv c =>
      by_cases h : cv = 0 ∨ cv = 61
      · exact ⟨true, by simp [matchesLoop, h]⟩
      · have h1 : cv ≠ 0 := fun e => h (Or.inl e)
        have h2 : cv ≠ 61 := fun e => h (Or.inr e)
        exact ⟨false, by simp [matchesLoop, h1, h2]⟩
  | cons a name ih =>
    have ha : a ≠ 0 := fun e => h0 (by simp [e])
    have hn : 0 ∉ name := fun e => h0 (by simp [e])
    cases line with
    | nil => exact ⟨false, by simp [matchesLoop, ha, Ne.symm ha]⟩
    | cons cv c =>
      by_cases hcv : cv = a
      · subst hcv
        obtain ⟨b, hb⟩ := ih hn c
        exact ⟨b, by simp [matchesLoop, ha, hb]⟩
      · exact ⟨false, by simp [matchesLoop, ha, hcv]⟩

/-- Bytes after the terminator play no part in the answer. -/
theorem matchesLoop_junk (name : List Nat) (h0 : 0 ∉ name) (line junk : List Nat) :
    matchesLoop (line ++ 0 :: junk) (name ++ [0]) = matchesLoop (line ++ [0]) (name ++ [0]) := by
  induction name generalizing line with
  | nil =>
    cases line with
    | nil => simp [matchesLoop]
    | cons cv c => simp [matchesLoop]
  | cons a name ih =>
    have ha : a ≠ 0 := fun e => h0 (by simp [e])
    have hn : 0 ∉ name := fun e => h0 (by simp [e])
    cases line with
    | nil => simp [matchesLoop, ha, Ne.symm ha]
    | cons cv c =>
      by_cases hcv : cv = a
      · subst hcv
        simp [matchesLoop, ha, ih hn c]
      · simp [matchesLoop, ha, hcv]

theorem matches_total_aux (name line junk : List Nat) (f : Option CommandFunction)
    (h0 : 0 ∉ name) :
    ∃ b, (⟨some (name ++ [0]), f⟩ : CommandHandler).matches (line ++ 0 :: junk) = .ok b ∧
      (b = true ↔ BeginsWith name (line ++ 0 :: junk)) := by
  obtain ⟨b, hb⟩ := matchesLoop_total name h0 line junk
  refine ⟨b, hb, ?_⟩
  rw [← matchesLoop_true_iff name h0, hb]
  simp

theorem handles_eq_mkTable : handles = mkTable registered := rfl

/-! ## Strings, console, dispatch -/

theorem strlen_cstr (t junk : List Nat) (h0 : 0 ∉ t) : strlen (t ++ 0 :: junk) = .ok t.length := by
  induction t with
  | nil => simp [strlen]
  | cons a t ih =>
    have ha : a ≠ 0 := fun e => h0 (by simp [e])
    have hn : 0 ∉ t := fun e => h0 (by simp [e])
    simp [strlen, ha, ih hn, Except.map]

theorem writeLine_cstr (t junk : List Nat) (h0 : 0 ∉ t) (w : World) :
    Ion.Console.writeLine (t ++ 0 :: junk) w = .ok { w with console := w.console ++ [t] } := by
  simp [Ion.Console.writeLine, strlen_cstr t junk h0]

theorem writeLine_lit (s : String) (h0 : 0 ∉ bytes s) (w : World) :
    Ion.Console.writeLine (lit s) w = .ok { w with console := w.console ++ [bytes s] } :=
  writeLine_cstr (bytes s) [] h0 w

/-- An entry whose name the line does not begin with is passed over. -/
theorem handle_of_not_beginsWith (name line junk : List Nat) (f : Option CommandFunction)
    (h0 : 0 ∉ name) (hb : ¬ BeginsWith name (line ++ 0 :: junk)) (w : World) :
    (⟨some (name ++ [0]), f⟩ : CommandHandler).handle (line ++ 0 :: junk) w = .ok (false, w) := by
  obtain ⟨b, hm, hiff⟩ := matches_total_aux name line junk f h0
  cases b with
  | false => simp [CommandHandler.handle, hm]
  | true => exact absurd (hiff.1 rfl) hb

/-- An entry whose name the line begins with calls its function once, with
the bytes after the `=` that follows the name, or with null. -/
theorem handle_of_beginsWith (name : List Nat) (cmd : CPtr) (f : CommandFunction)
    (h0 : 0 ∉ name) (hb : BeginsWith name cmd) (w : World) :
    (⟨some (name ++ [0]), some f⟩ : CommandHandler).handle cmd w =
      (f (if cmd.get? name.length = some 61 then some (cmd.drop (name.length + 1)) else none) w).map
        (fun w1 => (true, w1)) := by
  have hm : matchesLoop cmd (name ++ [0]) = .ok true := (matchesLoop_true_iff name h0 cmd).2 hb
  have hlen : strlen (name ++ [0]) = .ok name.length := strlen_cstr name [] h0
  rcases hb.2 with h | h
  · have h2 : cmd[name.length]? = some 0 := by simpa using h
    simp [CommandHandler.handle, CommandHandler.matches, hm, strlenN, hlen, idx, h2]
  · have h2 : cmd[name.length]? = some 61 := by simpa using h
    simp [CommandHandler.handle, CommandHandler.matches, hm, strlenN, hlen, idx, h2]

/-- Entries the line does not begin with are skipped in order. -/
theorem dispatchLoop_skip (pre : List (List Nat × CommandFunction)) (rest : List CommandHandler)
    (line junk : List Nat) (w : World)
    (hpre : ∀ e ∈ pre, 0 ∉ e.1 ∧ ¬ BeginsWith e.1 (line ++ 0 :: junk)) :
    dispatchLoop (pre.map (fun e => ⟨some (e.1 ++ [0]), some e.2⟩) ++ rest) (line ++ 0 :: junk) w =
      dispatchLoop rest (line ++ 0 :: junk) w := by
  induction pre with
  | nil => rfl
  | cons e pre ih =>
    have he := hpre e (by simp)
    have hrest : ∀ e ∈ pre, 0 ∉ e.1 ∧ ¬ BeginsWith e.1 (line ++ 0 :: junk) :=
      fun x hx => hpre x (by simp [hx])
    simp only [List.map_cons, List.cons_append, dispatchLoop]
    rw [handle_of_not_beginsWith e.1 line junk (some e.2) he.1 he.2 w]
    simp [CommandHandler.valid, ih hrest]


/-- Two names free of NUL and `=` that a buffer both begins with are equal. -/
theorem beginsWith_unique (n1 n2 : List Nat) (cmd : CPtr)
    (h1 : 0 ∉ n1 ∧ 61 ∉ n1) (h2 : 0 ∉ n2 ∧ 61 ∉ n2)
    (hb1 : BeginsWith n1 cmd) (hb2 : BeginsWith n2 cmd) : n1 = n2 := by
  have key : ∀ (a b : List Nat), (0 ∉ b ∧ 61 ∉ b) → BeginsWith a cmd → BeginsWith b cmd →
      a.length ≤ b.length → a = b := by
    intro a b hbfree ha hb hle
    have hpre : a <+: b := List.prefix_of_prefix_length_le ha.1 hb.1 hle
    obtain ⟨t, ht⟩ := hpre
    cases t with
    | nil => simpa using ht
    | cons x t =>
      exfalso
      obtain ⟨u, hu⟩ := hb.1
      have hget : cmd[a.length]? = some x := by
        rw [← hu, ← ht, List.append_assoc, List.getElem?_append_right (le_refl _)]
        simp
      have hx : x ∈ b := by rw [← ht]; simp
      have ha2 := ha.2
      rw [List.get?_eq_getElem?, hget] at ha2
      rcases ha2 with e | e
      · exact hbfree.1 (by rw [← Option.some.inj e]; exact hx)
      · exact hbfree.2 (by rw [← Option.some.inj e]; exact hx)
  rcases Nat.le_total n1.length n2.length with hle | hle
  · exact key n1 n2 h2 hb1 hb2 hle
  · exact (key n2 n1 h1 hb2 hb1 hle).symm

/-- A handler that only accepts a null argument answers `SYNTAX_ERROR` to any
other, without touching the device. -/
theorem noArg_present (p : CPtr) (w : World) :
    command_ping (some p) w = .ok { w with console := w.console ++ [bytes "SYNTAX_ERROR"] } ∧
    command_mcu_serial (some p) w = .ok { w with console := w.console ++ [bytes "SYNTAX_ERROR"] } ∧
    command_adc (some p) w = .ok { w with console := w.console ++ [bytes "SYNTAX_ERROR"] } ∧
    command_charge (some p) w = .ok { w with console := w.console ++ [bytes "SYNTAX_ERROR"] } ∧
    command_keyboard (some p) w = .ok { w with console := w.console ++ [bytes "SYNTAX_ERROR"] } := by
  have h := writeLine_lit "SYNTAX_ERROR" (by decide) w
  simp [command_ping, command_mcu_serial, command_adc, command_charge, command_keyboard,
    sSyntaxError, h]

/-! ## Hexadecimal -/

theorem isHex_iff (c : Nat) : isHex c = true ↔ UpperHexDigit c := by
  unfold isHex hexChar UpperHexDigit
  simp only [decide_eq_true_eq]
  split_ifs <;> omega

theorem hexChar_upper (c : Nat) (h : UpperHexDigit c) :
    (hexChar c % 2 ^ 32).toNat = hexDigitValue c ∧ hexDigitValue c < 16 := by
  unfold hexChar hexDigitValue
  unfold UpperHexDigit at h
  split_ifs <;> omega

theorem shl_or (r h : Nat) (hh : h < 16) :
    ((r <<< 4) % 2 ^ 32) ||| h = (16 * r + h) % 2 ^ 32 := by
  have h1 : (r <<< 4) % 2 ^ 32 = 2 ^ 4 * (r % 2 ^ 28) := by
    rw [Nat.shiftLeft_eq]; omega
  rw [h1, ← Nat.mul_add_lt_is_or (by simpa using hh)]
  omega

theorem hexValue_lt (ds : List Nat) (hds : ∀ d ∈ ds, UpperHexDigit d) :
    hexValue ds < 16 ^ ds.length := by
  induction ds with
  | nil => simp [hexValue]
  | cons d ds ih =>
    have hd := (hexChar_upper d (hds d (by simp))).2
    have := ih (fun x hx => hds x (by simp [hx]))
    simp only [hexValue, List.length_cons, pow_succ]
    nlinarith

/-- The accumulating loop of `hexNumber` on a string of uppercase hexadecimal
digits: the accumulator shifted by the digits, plus their value, modulo 2^32. -/
theorem hexNumberLoop_digits (ds junk : List Nat) (hds : ∀ d ∈ ds, UpperHexDigit d)
    (r : Nat) (hr : r < 2 ^ 32) :
    hexNumberLoop (ds ++ 0 :: junk) r = .ok ((r * 16 ^ ds.length + hexValue ds) % 2 ^ 32) := by
  induction ds generalizing r with
  | nil =>
    have hr2 : r % 2 ^ 32 = r := Nat.mod_eq_of_lt hr
    simp only [List.nil_append, hexNumberLoop, ne_eq, not_true_eq_false, if_false, hexValue,
      List.length_nil, pow_zero, mul_one, add_zero, hr2]
  | cons d ds ih =>
    have hd := hexChar_upper d (hds d (by simp))
    have hd0 : d ≠ 0 := by
      have := hds d (by simp)
      unfold UpperHexDigit at this
      omega
    have hrest : ∀ x ∈ ds, UpperHexDigit x := fun x hx => hds x (by simp [hx])
    simp only [List.cons_append, hexNumberLoop, ne_eq, hd0, not_false_eq_true, if_true]
    rw [hd.1, shl_or r _ hd.2]
    show hexNumberLoop (ds ++ 0 :: junk) _ = _
    rw [ih hrest _ (Nat.mod_lt _ (by norm_num))]
    congr 1
    simp only [hexValue, List.length_cons]
    have hmod : ((16 * r + hexDigitValue d) % 2 ^ 32 * 16 ^ ds.length + hexValue ds) ≡
        ((16 * r + hexDigitValue d) * 16 ^ ds.length + hexValue ds) [MOD 2 ^ 32] :=
      ((Nat.mod_modEq _ _).mul_right _).add_right _
    rw [show r * 16 ^ (ds.length + 1) + (hexDigitValue d * 16 ^ ds.length + hexValue ds) =
      (16 * r + hexDigitValue d) * 16 ^ ds.length + hexValue ds by ring]
    exact hmod

theorem hexNumber_digits (ds junk : List Nat) (hds : ∀ d ∈ ds, UpperHexDigit d) :
    hexNumber (ds ++ 0 :: junk) = .ok (hexValue ds % 2 ^ 32) := by
  have := hexNumberLoop_digits ds junk hds 0 (by norm_num)
  simpa [hexNumber] using this

/-! ## `strcmp` against a literal -/

theorem strcmpP_cstr (a t junk : List Nat) (ha : 0 ∉ a) (ht : 0 ∉ t) :
    ∃ r, strcmpP (a ++ 0 :: junk) (t ++ [0]) = .ok r ∧ (r = 0 ↔ a = t) := by
  induction a generalizing t with
  | nil =>
    cases t with
    | nil => exact ⟨0, by simp [strcmpP]⟩
    | cons y t =>
      have hy : y ≠ 0 := fun e => ht (by simp [e])
      refine ⟨(0 : Int) - (y : Int), by simp [strcmpP, Ne.symm hy], ?_⟩
      simp only [List.nil_eq, reduceCtorEq, iff_false]
      omega
  | cons x a ih =>
    have hx : x ≠ 0 := fun e => ha (by simp [e])
    have ha2 : 0 ∉ a := fun e => ha (by simp [e])
    cases t with
    | nil =>
      refine ⟨(x : Int) - 0, by simp [strcmpP, hx], ?_⟩
      simp only [reduceCtorEq, iff_false]
      omega
    | cons y t =>
      have ht2 : 0 ∉ t := fun e => ht (by simp [e])
      by_cases hxy : x = y
      · subst hxy
        obtain ⟨r, hr, hiff⟩ := ih t ha2 ht2
        exact ⟨r, by simp [strcmpP, hx, hr], by simp [hiff]⟩
      · refine ⟨(x : Int) - (y : Int), by simp [strcmpP, hxy], ?_⟩
        simp only [List.cons.injEq, hxy, false_and, iff_false]
        omega

/-! ## `command_led` on a present argument -/

theorem cor_ok_true (x : Except Fault Bool) : cor (.ok true) x = .ok true := rfl

theorem cor_ok_false (x : Except Fault Bool) : cor (.ok false) x = x := rfl

theorem cor_ok_ok (a b : Bool) : cor (.ok a) (.ok b) = .ok (a || b) := by
  cases a <;> rfl

theorem isHex_zero : isHex 0 = false := by decide

/-- With an argument other than `ON` and `OFF`, `command_led` goes on to the
hexadecimal check. -/
theorem command_led_not_on_off (a junk : List Nat) (w : World) (h0 : 0 ∉ a)
    (hon : a ≠ bytes "ON") (hoff : a ≠ bytes "OFF") :
    command_led (some (a ++ 0 :: junk)) w =
      (cor (.ok false) <|
         cor ((idx (a ++ 0 :: junk) 0).map (· != 48)) <|
         cor ((idx (a ++ 0 :: junk) 1).map (· != 120)) <|
         cor ((idx (a ++ 0 :: junk) 2).map (fun c => !isHex c)) <|
         cor ((idx (a ++ 0 :: junk) 3).map (fun c => !isHex c)) <|
         cor ((idx (a ++ 0 :: junk) 4).map (fun c => !isHex c)) <|
         cor ((idx (a ++ 0 :: junk) 5).map (fun c => !isHex c)) <|
         cor ((idx (a ++ 0 :: junk) 6).map (fun c => !isHex c)) <|
         cor ((idx (a ++ 0 :: junk) 7).map (fun c => !isHex c)) <|
         (idx (a ++ 0 :: junk) 8).map (· != 0)).bind fun bad =>
          if bad then Ion.Console.writeLine sSyntaxError w
          else (hexNumber ((a ++ 0 :: junk).drop 2)).bind fun hexColor =>
            Ion.Console.writeLine sOK (Ion.LED.setColor (KDColor.RGB24 hexColor) w) := by
  obtain ⟨r1, h1, hiff1⟩ := strcmpP_cstr a (bytes "ON") junk h0 (by decide)
  obtain ⟨r2, h2, hiff2⟩ := strcmpP_cstr a (bytes "OFF") junk h0 (by decide)
  have e1 : strcmp (some (a ++ 0 :: junk)) (some sON) = .ok r1 := h1
  have e2 : strcmp (some (a ++ 0 :: junk)) (some sOFF) = .ok r2 := h2
  have hr1 : r1 ≠ 0 := fun e => hon (hiff1.1 e)
  have hr2 : r2 ≠ 0 := fun e => hoff (hiff2.1 e)
  unfold command_led
  rw [e1, e2]
  simp only [Except.bind, hr1, hr2, if_false, idxN, advance, Option.isNone_some]

/-- On `0x` and six uppercase hexadecimal digits `command_led` sets the colour
built from their value and answers `OK`. -/
theorem command_led_hex (ds junk : List Nat) (w : World) (hlen : ds.length = 6)
    (hds : ∀ d ∈ ds, UpperHexDigit d) :
    command_led (some (bytes "0x" ++ ds ++ 0 :: junk)) w =
      .ok { Ion.LED.setColor (KDColor.RGB24 (hexValue ds)) w with
            console := w.console ++ [bytes "OK"] } := by
  have hz : 0 ∉ bytes "0x" ++ ds := by
    intro hmem
    rcases List.mem_append.1 hmem with h | h
    · exact absurd h (by decide)
    · have := hds 0 h
      unfold UpperHexDigit at this
      omega
  rw [command_led_not_on_off (bytes "0x" ++ ds) junk w hz
    (by intro e; have := congrArg List.length e
        rw [List.length_append, hlen] at this; exact absurd this (by decide))
    (by intro e; have := congrArg List.length e
        rw [List.length_append, hlen] at this; exact absurd this (by decide))]
  have hnum := hexNumber_digits ds junk hds
  have hlt : hexValue ds % 2 ^ 32 = hexValue ds := by
    apply Nat.mod_eq_of_lt
    have := hexValue_lt ds hds
    rw [hlen] at this
    omega
  rw [hlt] at hnum
  have hdrop : (bytes "0x" ++ ds ++ 0 :: junk).drop 2 = ds ++ 0 :: junk := by simp [bytes]
  rw [hdrop, hnum]
  match ds, hlen, hds with
  | [d1, d2, d3, d4, d5, d6], _, hds =>
    have i1 := (isHex_iff d1).2 (hds d1 (by simp))
    have i2 := (isHex_iff d2).2 (hds d2 (by simp))
    have i3 := (isHex_iff d3).2 (hds d3 (by simp))
    have i4 := (isHex_iff d4).2 (hds d4 (by simp))
    have i5 := (isHex_iff d5).2 (hds d5 (by simp))
    have i6 := (isHex_iff d6).2 (hds d6 (by simp))
    have hok := writeLine_lit "OK" (by decide)
    simp [idx, Except.map, cor_ok_ok, cor_ok_false, i1, i2, i3, i4, i5, i6, Except.bind,
      sOK, hok, Ion.LED.setColor, show bytes "0x" = [48, 120] from rfl]

/-- On any other present argument `command_led` answers `SYNTAX_ERROR` and
leaves the device alone. -/
theorem command_led_reject (a junk : List Nat) (w : World) (h0 : 0 ∉ a)
    (hon : a ≠ bytes "ON") (hoff : a ≠ bytes "OFF") (hhex : ¬ HexForm 6 a) :
    command_led (some (a ++ 0 :: junk)) w =
      .ok { w with console := w.console ++ [bytes "SYNTAX_ERROR"] } := by
  rw [command_led_not_on_off a junk w h0 hon hoff]
  have hse := writeLine_lit "SYNTAX_ERROR" (by decide) w
  clear hon hoff
  rcases a with _ | ⟨c0, _ | ⟨c1, _ | ⟨c2, _ | ⟨c3, _ | ⟨c4, _ | ⟨c5, _ | ⟨c6, _ | ⟨c7, _ | ⟨c8, a⟩⟩⟩⟩⟩⟩⟩⟩⟩
  all_goals try
    (simp [idx, Except.map, cor_ok_ok, cor_ok_false, cor_ok_true, isHex_zero, Except.bind,
      sSyntaxError, hse]; done)
  · -- exactly eight characters
    have hbad : (c0 != 48 || (c1 != 120 || (!isHex c2 || (!isHex c3 || (!isHex c4 ||
        (!isHex c5 || (!isHex c6 || !isHex c7))))))) = true := by
      by_contra hb
      apply hhex
      simp only [Bool.or_eq_true, bne_iff_ne, ne_eq, Bool.not_eq_true', not_or, not_not,
        Bool.not_eq_false] at hb
      obtain ⟨e0, e1, e2, e3, e4, e5, e6, e7⟩ := hb
      refine ⟨[c2, c3, c4, c5, c6, c7], by simp [bytes, e0, e1], rfl, ?_⟩
      intro d hd
      simp only [List.mem_cons, List.mem_singleton, List.not_mem_nil, or_false] at hd
      rcases hd with rfl | rfl | rfl | rfl | rfl | rfl
      all_goals simp [← isHex_iff, *]
    simp [idx, Except.map, cor_ok_ok, cor_ok_false, cor_ok_true, Except.bind, sSyntaxError, hse,
      hbad]
  · -- nine characters or more
    have hc8 : c8 ≠ 0 := fun e => h0 (by simp [e])
    simp [idx, Except.map, cor_ok_ok, cor_ok_false, cor_ok_true, Except.bind, sSyntaxError, hse,
      hc8]

/-- The dispatch loop at the first entry whose name the line begins with: one
call of that entry's function. -/
theorem dispatch_at_first_match (pre post : List (List Nat × CommandFunction))
    (name : List Nat) (f : CommandFunction) (line junk : List Nat) (w : World)
    (hpre : ∀ e ∈ pre, 0 ∉ e.1 ∧ ¬ BeginsWith e.1 (line ++ 0 :: junk))
    (h0 : 0 ∉ name) (hb : BeginsWith name (line ++ 0 :: junk)) :
    CommandList.dispatch ⟨mkTable (pre ++ (name, f) :: post)⟩ (line ++ 0 :: junk) w =
      f (if (line ++ 0 :: junk).get? name.length = some 61
          then some ((line ++ 0 :: junk).drop (name.length + 1)) else none) w := by
  show dispatchLoop (mkTable (pre ++ (name, f) :: post)) (line ++ 0 :: junk) w = _
  unfold mkTable
  rw [List.map_append, List.append_assoc, dispatchLoop_skip pre _ line junk w hpre]
  simp only [List.map_cons, List.cons_append, dispatchLoop]
  rw [handle_of_beginsWith name (line ++ 0 :: junk) f h0 hb w]
  simp only [CommandHandler.valid, Option.isSome_some, Bool.and_self, if_true]
  cases f (if (line ++ 0 :: junk).get? name.length = some 61
        then some ((line ++ 0 :: junk).drop (name.length + 1)) else none) w <;> rfl

/-- The dispatch loop when the line begins with no name of the table: the
sentinel is reached and `NOT_FOUND` is written. -/
theorem dispatch_at_sentinel (entries : List (List Nat × CommandFunction))
    (line junk : List Nat) (w : World)
    (h : ∀ e ∈ entries, 0 ∉ e.1 ∧ ¬ BeginsWith e.1 (line ++ 0 :: junk)) :
    CommandList.dispatch ⟨mkTable entries⟩ (line ++ 0 :: junk) w =
      .ok { w with console := w.console ++ [bytes "NOT_FOUND"] } := by
  show dispatchLoop (mkTable entries) (line ++ 0 :: junk) w = _
  unfold mkTable
  rw [dispatchLoop_skip entries _ line junk w h]
  simp only [dispatchLoop, CommandHandler.valid, Option.isSome_none, Bool.and_self,
    Bool.false_eq_true, if_false]
  exact writeLine_lit "NOT_FOUND" (by decide) w

/-- Claim C1: for a NUL-terminated line and a command name, `matches` returns,
and it returns true exactly when the line begins with the bytes of the name
and the next byte is the terminator or `=`. -/
theorem matches_iff_beginsWith (name line junk : List Nat) (f : Option CommandFunction)
    (h0 : 0 ∉ name) :
    ∃ b, (⟨some (name ++ [0]), f⟩ : CommandHandler).matches (line ++ 0 :: junk) = .ok b ∧
      (b = true ↔ BeginsWith name (line ++ 0 :: junk)) := by
  obtain ⟨b, hb⟩ := matchesLoop_total name h0 line junk
  refine ⟨b, hb, ?_⟩
  rw [← matchesLoop_true_iff name h0, hb]
  simp

theorem matches_iff_beginsWith_witness :
    ∃ b, (⟨some (bytes "PING" ++ [0]), some command_ping⟩ : CommandHandler).matches
        (bytes "PING=1" ++ 0 :: [7, 7]) = .ok b ∧
      (b = true ↔ BeginsWith (bytes "PING") (bytes "PING=1" ++ 0 :: [7, 7])) :=
  matches_iff_beginsWith (bytes "PING") (bytes "PING=1") [7, 7] (some command_ping) (by decide)

/-- Claim C2: run on a line object that ends at its terminator, `matches`
returns without a fault, so no byte past the terminator is read; bytes placed
after the terminator never change the answer; and a line shorter than the
name gets the answer false. -/
theorem matches_reads_within_line (name line : List Nat) (f : Option CommandFunction)
    (h0 : 0 ∉ name) :
    (∃ b, (⟨some (name ++ [0]), f⟩ : CommandHandler).matches (line ++ [0]) = .ok b) ∧
    (∀ junk, (⟨some (name ++ [0]), f⟩ : CommandHandler).matches (line ++ 0 :: junk) =
      (⟨some (name ++ [0]), f⟩ : CommandHandler).matches (line ++ [0])) ∧
    (line.length < name.length →
      (⟨some (name ++ [0]), f⟩ : CommandHandler).matches (line ++ [0]) = .ok false) := by
  refine ⟨matchesLoop_total name h0 line [], fun junk => matchesLoop_junk name h0 line junk, ?_⟩
  intro hlen
  obtain ⟨b, hb⟩ := matchesLoop_total name h0 line []
  show matchesLoop (line ++ [0]) (name ++ [0]) = .ok false
  rw [hb]
  cases b with
  | false => rfl
  | true =>
    exfalso
    have hbw := (matchesLoop_true_iff name h0 (line ++ [0])).1 hb
    obtain ⟨t, ht⟩ := hbw.1
    have hl : name.length + t.length = line.length + 1 := by
      have := congrArg List.length ht
      simpa using this
    have ht0 : t = [] := by
      cases t with
      | nil => rfl
      | cons x t => simp at hl; omega
    subst ht0
    have hmem : (0 : Nat) ∈ name := by
      have : name = line ++ [0] := by simpa using ht
      rw [this]; simp
    exact h0 hmem

theorem matches_reads_within_line_witness :
    (∃ b, (⟨some (bytes "PING" ++ [0]), none⟩ : CommandHandler).matches (bytes "PI" ++ [0]) = .ok b) ∧
    (∀ junk, (⟨some (bytes "PING" ++ [0]), none⟩ : CommandHandler).matches (bytes "PI" ++ 0 :: junk) =
      (⟨some (bytes "PING" ++ [0]), none⟩ : CommandHandler).matches (bytes "PI" ++ [0])) ∧
    ((bytes "PI").length < (bytes "PING").length →
      (⟨some (bytes "PING" ++ [0]), none⟩ : CommandHandler).matches (bytes "PI" ++ [0]) = .ok false) :=
  matches_reads_within_line (bytes "PING") (bytes "PI") none (by decide)

/-- Claim C3: when the line begins with none of the registered names followed
by the terminator or `=`, dispatch passes every entry over, stops at the
sentinel without calling `matches` on it, calls no function of the table, and
writes the one line `NOT_FOUND`, leaving the device as it was. -/
theorem dispatch_not_found (entries : List (List Nat × CommandFunction))
    (line junk : List Nat) (w : World)
    (h : ∀ e ∈ entries, 0 ∉ e.1 ∧ ¬ BeginsWith e.1 (line ++ 0 :: junk)) :
    CommandList.dispatch ⟨mkTable entries⟩ (line ++ 0 :: junk) w =
      .ok { w with console := w.console ++ [bytes "NOT_FOUND"] } := by
  show dispatchLoop (mkTable entries) (line ++ 0 :: junk) w = _
  unfold mkTable
  rw [dispatchLoop_skip entries _ line junk w h]
  simp only [dispatchLoop, CommandHandler.valid, Option.isSome_none, Bool.and_self,
    Bool.false_eq_true, if_false]
  exact writeLine_lit "NOT_FOUND" (by decide) w

theorem dispatch_not_found_witness :
    (sCommandList.dispatch (bytes "FOO" ++ 0 :: []) World.idle =
      .ok { World.idle with console := World.idle.console ++ [bytes "NOT_FOUND"] }) ∧
    (sCommandList.dispatch (bytes "ping" ++ 0 :: []) World.idle =
      .ok { World.idle with console := World.idle.console ++ [bytes "NOT_FOUND"] }) ∧
    (sCommandList.dispatch (bytes "PIN" ++ 0 :: []) World.idle =
      .ok { World.idle with console := World.idle.console ++ [bytes "NOT_FOUND"] }) ∧
    (sCommandList.dispatch ([] ++ 0 :: []) World.idle =
      .ok { World.idle with console := World.idle.console ++ [bytes "NOT_FOUND"] }) :=
  ⟨dispatch_not_found registered (bytes "FOO") [] World.idle (by decide),
   dispatch_not_found registered (bytes "ping") [] World.idle (by decide),
   dispatch_not_found registered (bytes "PIN") [] World.idle (by decide),
   dispatch_not_found registered [] [] World.idle (by decide)⟩

/-- Claim C4: when the line begins with the name of an entry and with the name
of no earlier entry, dispatch is exactly one call of that entry's function and
nothing else (later entries play no part). The argument is the rest of the
buffer after the `=` that follows the name, or null when the name is followed
by the terminator; for a name free of `=` that rest is the remainder of the
line after its first `=`. -/
theorem dispatch_first_match (pre post : List (List Nat × CommandFunction))
    (name : List Nat) (f : CommandFunction) (line junk : List Nat) (w : World)
    (hpre : ∀ e ∈ pre, 0 ∉ e.1 ∧ ¬ BeginsWith e.1 (line ++ 0 :: junk))
    (h0 : 0 ∉ name) (hb : BeginsWith name (line ++ 0 :: junk)) :
    CommandList.dispatch ⟨mkTable (pre ++ (name, f) :: post)⟩ (line ++ 0 :: junk) w =
      f (if (line ++ 0 :: junk).get? name.length = some 61
          then some ((line ++ 0 :: junk).drop (name.length + 1)) else none) w ∧
    (61 ∉ name → (line ++ 0 :: junk).get? name.length = some 61 →
      (line ++ 0 :: junk).drop (name.length + 1) = afterFirstEq (line ++ 0 :: junk)) := by
  constructor
  · exact dispatch_at_first_match pre post name f line junk w hpre h0 hb
  · intro h61 hget
    obtain ⟨t, ht⟩ := hb.1
    rw [← ht] at hget ⊢
    have hdw : List.dropWhile (fun b => b != 61) (name ++ t) = List.dropWhile (fun b => b != 61) t := by
      clear hget ht hb hpre h0
      induction name with
      | nil => rfl
      | cons a name ih =>
        have ha : a ≠ 61 := fun e => h61 (by simp [e])
        have hn : 61 ∉ name := fun e => h61 (by simp [e])
        have hb61 : (a != 61) = true := by simp [ha]
        simp only [List.cons_append, List.dropWhile, hb61]
        exact ih hn
    cases t with
    | nil => simp at hget
    | cons x t =>
      have hx : x = 61 := by
        have h1 : (name ++ x :: t)[name.length]? = some x := by
          rw [List.getElem?_append_right (le_refl _)]
          simp
        rw [List.get?_eq_getElem?, h1] at hget
        exact Option.some.inj hget
      subst hx
      simp [afterFirstEq, hdw, List.dropWhile]

theorem dispatch_first_match_witness :
    sCommandList.dispatch (bytes "LED=ON" ++ 0 :: []) World.idle =
      command_led (if (bytes "LED=ON" ++ 0 :: []).get? (bytes "LED").length = some 61
          then some ((bytes "LED=ON" ++ 0 :: []).drop ((bytes "LED").length + 1)) else none) World.idle ∧
    (61 ∉ bytes "LED" → (bytes "LED=ON" ++ 0 :: []).get? (bytes "LED").length = some 61 →
      (bytes "LED=ON" ++ 0 :: []).drop ((bytes "LED").length + 1) = afterFirstEq (bytes "LED=ON" ++ 0 :: [])) :=
  dispatch_first_match [(bytes "PING", command_ping), (bytes "MCU_SERIAL", command_mcu_serial)]
    [(bytes "BACKLIGHT", command_backlight), (bytes "ADC", command_adc),
     (bytes "CHARGE", command_charge), (bytes "KEYBOARD", command_keyboard),
     (bytes "DISPLAY", command_display)]
    (bytes "LED") command_led (bytes "LED=ON") [] World.idle (by decide) (by decide) (by decide)

/-- Claim C5, at the line `LED`: dispatch calls `command_led` with a null
argument, whose first statement hands the null pointer to `strcmp`; the run
faults there and no response line is written. -/
theorem dispatch_bare_LED_writes_nothing (junk : List Nat) (w : World) :
    sCommandList.dispatch (bytes "LED" ++ 0 :: junk) w = .error .nullDeref := by
  have h := dispatch_at_first_match
    [(bytes "PING", command_ping), (bytes "MCU_SERIAL", command_mcu_serial)]
    [(bytes "BACKLIGHT", command_backlight), (bytes "ADC", command_adc),
     (bytes "CHARGE", command_charge), (bytes "KEYBOARD", command_keyboard),
     (bytes "DISPLAY", command_display)]
    (bytes "LED") command_led (bytes "LED") junk w
    (by simp [bytes, BeginsWith])
    (by decide) (by simp [bytes, BeginsWith])
  refine h.trans ?_
  simp [bytes, command_led, strcmp, Except.bind]

/-- Claim C6: on any buffer, at most one entry of `handles` matches: two table
positions whose entries both match are the same position. -/
theorem handles_match_unique (cmd : CPtr) (i j : Fin handles.length)
    (hi : (handles.get i).matches cmd = .ok true) (hj : (handles.get j).matches cmd = .ok true) :
    i = j := by
  have hall : ∀ k : Fin handles.length, (handles.get k).matches cmd = .ok true →
      ∃ n, (handles.get k).m_name = some (n ++ [0]) ∧ (0 ∉ n ∧ 61 ∉ n) ∧ BeginsWith n cmd := by
    intro k hk
    have hcases : ∀ k : Fin handles.length, (handles.get k).m_name = none ∨
        ∃ e ∈ registered, (handles.get k).m_name = some (e.1 ++ [0]) ∧ (0 ∉ e.1 ∧ 61 ∉ e.1) := by
      decide
    rcases hcases k with hnone | ⟨e, _, hn, hfree⟩
    · rw [CommandHandler.matches, hnone] at hk
      exact absurd hk (by simp)
    · refine ⟨e.1, hn, hfree, ?_⟩
      rw [← matchesLoop_true_iff e.1 hfree.1]
      rw [CommandHandler.matches, hn] at hk
      exact hk
  obtain ⟨n1, hn1, hf1, hb1⟩ := hall i hi
  obtain ⟨n2, hn2, hf2, hb2⟩ := hall j hj
  have hnn : n1 = n2 := beginsWith_unique n1 n2 cmd hf1 hf2 hb1 hb2
  have hname : (handles.get i).m_name = (handles.get j).m_name := by rw [hn1, hn2, hnn]
  have hinj : ∀ a b : Fin handles.length, (handles.get a).m_name = (handles.get b).m_name →
      (handles.get a).m_name ≠ none → a = b := by
    decide
  exact hinj i j hname (by rw [hn1]; simp)

theorem handles_match_unique_witness :
    (handles.get ⟨2, by decide⟩).matches (lit "LED=ON") = .ok true ∧
    (⟨2, by decide⟩ : Fin handles.length) = ⟨2, by decide⟩ :=
  ⟨by decide,
   handles_match_unique (lit "LED=ON") ⟨2, by decide⟩ ⟨2, by decide⟩ (by decide) (by decide)⟩

/-- Claim C8: for each no-argument command and every string `x`, the line
`NAME=x` is answered with the one line `SYNTAX_ERROR`; the device is otherwise
unchanged, its log of driver calls included. -/
theorem dispatch_no_arg_with_argument (name : List Nat) (hname : name ∈ noArgNames)
    (x junk : List Nat) (w : World) :
    sCommandList.dispatch (name ++ 61 :: x ++ 0 :: junk) w =
      .ok { w with console := w.console ++ [bytes "SYNTAX_ERROR"] } := by
  have hassoc : name ++ 61 :: x ++ 0 :: junk = (name ++ 61 :: x) ++ 0 :: junk := by simp
  rw [hassoc]
  simp only [noArgNames, List.mem_cons, List.mem_singleton, List.not_mem_nil, or_false] at hname
  rcases hname with rfl | rfl | rfl | rfl | rfl
  · refine (dispatch_at_first_match [] (registered.drop 1) (bytes "PING") command_ping
      (bytes "PING" ++ 61 :: x) junk w (by simp) (by decide) (by simp [bytes, BeginsWith])).trans ?_
    simp [bytes, (noArg_present _ w).1]
  · refine (dispatch_at_first_match (registered.take 1) (registered.drop 2) (bytes "MCU_SERIAL")
      command_mcu_serial (bytes "MCU_SERIAL" ++ 61 :: x) junk w
      (by simp [registered, bytes, BeginsWith]) (by decide) (by simp [bytes, BeginsWith])).trans ?_
    simp [bytes, (noArg_present _ w).2.1]
  · refine (dispatch_at_first_match (registered.take 4) (registered.drop 5) (bytes "ADC")
      command_adc (bytes "ADC" ++ 61 :: x) junk w
      (by simp [registered, bytes, BeginsWith]) (by decide) (by simp [bytes, BeginsWith])).trans ?_
    simp [bytes, (noArg_present _ w).2.2.1]
  · refine (dispatch_at_first_match (registered.take 5) (registered.drop 6) (bytes "CHARGE")
      command_charge (bytes "CHARGE" ++ 61 :: x) junk w
      (by simp [registered, bytes, BeginsWith]) (by decide) (by simp [bytes, BeginsWith])).trans ?_
    simp [bytes, (noArg_present _ w).2.2.2.1]
  · refine (dispatch_at_first_match (registered.take 6) (registered.drop 7) (bytes "KEYBOARD")
      command_keyboard (bytes "KEYBOARD" ++ 61 :: x) junk w
      (by simp [registered, bytes, BeginsWith]) (by decide) (by simp [bytes, BeginsWith])).trans ?_
    simp [bytes, (noArg_present _ w).2.2.2.2]

theorem dispatch_no_arg_with_argument_witness :
    sCommandList.dispatch (bytes "PING" ++ 61 :: bytes "x" ++ 0 :: []) World.idle =
      .ok { World.idle with console := World.idle.console ++ [bytes "SYNTAX_ERROR"] } :=
  dispatch_no_arg_with_argument (bytes "PING") (by decide) (bytes "x") [] World.idle

/-- Claim C9: for six uppercase hexadecimal digits, the line `LED=0x` and the
digits is answered `OK`, with one driver call: the LED colour is set to the
24-bit word whose red, green and blue bytes are the three digit pairs. -/
theorem dispatch_led_color (d1 d2 d3 d4 d5 d6 : Nat) (junk : List Nat) (w : World)
    (h1 : UpperHexDigit d1) (h2 : UpperHexDigit d2) (h3 : UpperHexDigit d3)
    (h4 : UpperHexDigit d4) (h5 : UpperHexDigit d5) (h6 : UpperHexDigit d6) :
    sCommandList.dispatch (bytes "LED=0x" ++ [d1, d2, d3, d4, d5, d6] ++ 0 :: junk) w =
      .ok { w with
            ledColor := KDColor.RGB24
              (65536 * (16 * hexDigitValue d1 + hexDigitValue d2) +
                256 * (16 * hexDigitValue d3 + hexDigitValue d4) +
                (16 * hexDigitValue d5 + hexDigitValue d6)),
            ops := w.ops ++ [.ledSetColor (KDColor.RGB24
              (65536 * (16 * hexDigitValue d1 + hexDigitValue d2) +
                256 * (16 * hexDigitValue d3 + hexDigitValue d4) +
                (16 * hexDigitValue d5 + hexDigitValue d6)))],
            console := w.console ++ [bytes "OK"] } ∧
    16 * hexDigitValue d1 + hexDigitValue d2 < 256 ∧
    16 * hexDigitValue d3 + hexDigitValue d4 < 256 ∧
    16 * hexDigitValue d5 + hexDigitValue d6 < 256 := by
  have v1 := (hexChar_upper d1 h1).2
  have v2 := (hexChar_upper d2 h2).2
  have v3 := (hexChar_upper d3 h3).2
  have v4 := (hexChar_upper d4 h4).2
  have v5 := (hexChar_upper d5 h5).2
  have v6 := (hexChar_upper d6 h6).2
  refine ⟨?_, by omega, by omega, by omega⟩
  have hds : ∀ d ∈ [d1, d2, d3, d4, d5, d6], UpperHexDigit d := by
    intro d hd
    simp only [List.mem_cons, List.mem_singleton, List.not_mem_nil, or_false] at hd
    rcases hd with rfl | rfl | rfl | rfl | rfl | rfl <;> assumption
  have hline : bytes "LED=0x" ++ [d1, d2, d3, d4, d5, d6] ++ 0 :: junk =
      (bytes "LED=0x" ++ [d1, d2, d3, d4, d5, d6]) ++ 0 :: junk := rfl
  rw [hline]
  refine (dispatch_at_first_match (registered.take 2) (registered.drop 3) (bytes "LED") command_led
    (bytes "LED=0x" ++ [d1, d2, d3, d4, d5, d6]) junk w
    (by simp [registered, bytes, BeginsWith]) (by decide) (by simp [bytes, BeginsWith])).trans ?_
  have harg : (if ((bytes "LED=0x" ++ [d1, d2, d3, d4, d5, d6]) ++ 0 :: junk).get?
        (bytes "LED").length = some 61
      then some ((((bytes "LED=0x" ++ [d1, d2, d3, d4, d5, d6]) ++ 0 :: junk)).drop
        ((bytes "LED").length + 1)) else none) =
      some (bytes "0x" ++ [d1, d2, d3, d4, d5, d6] ++ 0 :: junk) := by
    simp [bytes]
  rw [harg, command_led_hex [d1, d2, d3, d4, d5, d6] junk w rfl hds]
  have hv : hexValue [d1, d2, d3, d4, d5, d6] =
      65536 * (16 * hexDigitValue d1 + hexDigitValue d2) +
        256 * (16 * hexDigitValue d3 + hexDigitValue d4) +
        (16 * hexDigitValue d5 + hexDigitValue d6) := by
    simp only [hexValue, List.length_cons, List.length_nil]
    ring
  rw [hv]
  rfl

theorem dispatch_led_color_witness :
    sCommandList.dispatch (lit "LED=0x112233") World.idle =
      .ok { World.idle with
            ledColor := KDColor.RGB24 (65536 * 0x11 + 256 * 0x22 + 0x33),
            ops := World.idle.ops ++ [.ledSetColor (KDColor.RGB24 (65536 * 0x11 + 256 * 0x22 + 0x33))],
            console := World.idle.console ++ [bytes "OK"] } ∧
    0x11 < 256 ∧ 0x22 < 256 ∧ 0x33 < 256 :=
  dispatch_led_color 49 49 50 50 51 51 [] World.idle (by decide) (by decide) (by decide)
    (by decide) (by decide) (by decide)

/-- Claim C10: for a present NUL-terminated argument, `command_led` answers
`SYNTAX_ERROR` and leaves the whole device as it was (LED colour and LED
enabled state included) whenever the argument is not `ON`, not `OFF` and not
`0x` with six uppercase hexadecimal digits; and every argument of that
grammar is answered with the one line `OK`. -/
theorem command_led_grammar (a junk : List Nat) (w : World) (h0 : 0 ∉ a) :
    (¬ LedGrammar a →
      command_led (some (a ++ 0 :: junk)) w =
        .ok { w with console := w.console ++ [bytes "SYNTAX_ERROR"] }) ∧
    (LedGrammar a →
      ∃ w1, command_led (some (a ++ 0 :: junk)) w = .ok w1 ∧
        w1.console = w.console ++ [bytes "OK"]) := by
  constructor
  · intro hg
    exact command_led_reject a junk w h0 (fun e => hg (Or.inl e)) (fun e => hg (Or.inr (Or.inl e)))
      (fun e => hg (Or.inr (Or.inr e)))
  · rintro (rfl | rfl | ⟨ds, rfl, hlen, hds⟩)
    · refine ⟨{ Ion.LED.Device.init w with console := w.console ++ [bytes "OK"] }, ?_, rfl⟩
      have hok : ∀ w1 : World, Ion.Console.writeLine [79, 75, 0] w1 =
          .ok { w1 with console := w1.console ++ [[79, 75]] } :=
        writeLine_lit "OK" (by decide)
      simp [command_led, strcmp, sON, lit, bytes, strcmpP, Except.bind, sOK, hok,
        Ion.LED.Device.init]
    · refine ⟨{ Ion.LED.Device.shutdown w with console := w.console ++ [bytes "OK"] }, ?_, rfl⟩
      have hok : ∀ w1 : World, Ion.Console.writeLine [79, 75, 0] w1 =
          .ok { w1 with console := w1.console ++ [[79, 75]] } :=
        writeLine_lit "OK" (by decide)
      simp [command_led, strcmp, sON, sOFF, lit, bytes, strcmpP, Except.bind, sOK, hok,
        Ion.LED.Device.shutdown]
    · exact ⟨_, command_led_hex ds junk w hlen hds, rfl⟩

theorem command_led_grammar_witness :
    command_led (some (bytes "0x11223" ++ 0 :: [])) World.idle =
      .ok { World.idle with console := World.idle.console ++ [bytes "SYNTAX_ERROR"] } ∧
    command_led (some (bytes "0x1122334" ++ 0 :: [])) World.idle =
      .ok { World.idle with console := World.idle.console ++ [bytes "SYNTAX_ERROR"] } ∧
    command_led (some (bytes "0xaabbcc" ++ 0 :: [])) World.idle =
      .ok { World.idle with console := World.idle.console ++ [bytes "SYNTAX_ERROR"] } ∧
    command_led (some (bytes "112233" ++ 0 :: [])) World.idle =
      .ok { World.idle with console := World.idle.console ++ [bytes "SYNTAX_ERROR"] } ∧
    (∃ w1, command_led (some (bytes "0xAABBCC" ++ 0 :: [])) World.idle = .ok w1 ∧
      w1.console = World.idle.console ++ [bytes "OK"]) :=
  ⟨(command_led_grammar (bytes "0x11223") [] World.idle (by decide)).1
      (by simp [LedGrammar, HexForm, bytes]),
   (command_led_grammar (bytes "0x1122334") [] World.idle (by decide)).1
      (by simp [LedGrammar, HexForm, bytes]),
   (command_led_grammar (bytes "0xaabbcc") [] World.idle (by decide)).1
      (by simp [LedGrammar, HexForm, bytes, UpperHexDigit]),
   (command_led_grammar (bytes "112233") [] World.idle (by decide)).1
      (by simp [LedGrammar, HexForm, bytes]),
   (command_led_grammar (bytes "0xAABBCC") [] World.idle (by decide)).2
      (Or.inr (Or.inr ⟨bytes "AABBCC", by decide, by decide, by decide⟩))⟩

/-! ## The switching handlers on `ON`, `OFF` and other arguments -/

theorem writeLine_OK (w1 : World) :
    Ion.Console.writeLine [79, 75, 0] w1 = .ok { w1 with console := w1.console ++ [[79, 75]] } :=
  writeLine_lit "OK" (by decide) w1

theorem command_led_on (junk : List Nat) (w : World) :
    command_led (some (bytes "ON" ++ 0 :: junk)) w =
      .ok { Ion.LED.Device.init w with console := w.console ++ [bytes "OK"] } := by
  simp [command_led, strcmp, sON, lit, bytes, strcmpP, Except.bind, sOK, writeLine_OK,
    Ion.LED.Device.init]

theorem command_led_off (junk : List Nat) (w : World) :
    command_led (some (bytes "OFF" ++ 0 :: junk)) w =
      .ok { Ion.LED.Device.shutdown w with console := w.console ++ [bytes "OK"] } := by
  simp [command_led, strcmp, sON, sOFF, lit, bytes, strcmpP, Except.bind, sOK, writeLine_OK,
    Ion.LED.Device.shutdown]

theorem command_backlight_on (junk : List Nat) (w : World) :
    command_backlight (some (bytes "ON" ++ 0 :: junk)) w =
      .ok { Ion.Backlight.Device.init w with console := w.console ++ [bytes "OK"] } := by
  simp [command_backlight, strcmp, sON, lit, bytes, strcmpP, Except.bind, sOK, writeLine_OK,
    Ion.Backlight.Device.init]

theorem command_backlight_off (junk : List Nat) (w : World) :
    command_backlight (some (bytes "OFF" ++ 0 :: junk)) w =
      .ok { Ion.Backlight.Device.shutdown w with console := w.console ++ [bytes "OK"] } := by
  simp [command_backlight, strcmp, sON, sOFF, lit, bytes, strcmpP, Except.bind, sOK,
    writeLine_OK, Ion.Backlight.Device.shutdown]

theorem command_display_on (junk : List Nat) (w : World) :
    command_display (some (bytes "ON" ++ 0 :: junk)) w =
      .ok { Ion.Display.Device.init w with console := w.console ++ [bytes "OK"] } := by
  simp [command_display, strcmp, sON, lit, bytes, strcmpP, Except.bind, sOK, writeLine_OK,
    Ion.Display.Device.init]

theorem command_display_off (junk : List Nat) (w : World) :
    command_display (some (bytes "OFF" ++ 0 :: junk)) w =
      .ok { Ion.Display.Device.shutdown w with console := w.console ++ [bytes "OK"] } := by
  simp [command_display, strcmp, sON, sOFF, lit, bytes, strcmpP, Except.bind, sOK,
    writeLine_OK, Ion.Display.Device.shutdown]

/-- On a present argument other than `ON` and `OFF`, `command_display` answers
`SYNTAX_ERROR` and leaves the device alone. -/
theorem command_display_reject (a junk : List Nat) (w : World) (h0 : 0 ∉ a)
    (hon : a ≠ bytes "ON") (hoff : a ≠ bytes "OFF") :
    command_display (some (a ++ 0 :: junk)) w =
      .ok { w with console := w.console ++ [bytes "SYNTAX_ERROR"] } := by
  obtain ⟨r1, h1, hiff1⟩ := strcmpP_cstr a (bytes "ON") junk h0 (by decide)
  obtain ⟨r2, h2, hiff2⟩ := strcmpP_cstr a (bytes "OFF") junk h0 (by decide)
  have e1 : strcmp (some (a ++ 0 :: junk)) (some sON) = .ok r1 := h1
  have e2 : strcmp (some (a ++ 0 :: junk)) (some sOFF) = .ok r2 := h2
  have hr1 : r1 ≠ 0 := fun e => hon (hiff1.1 e)
  have hr2 : r2 ≠ 0 := fun e => hoff (hiff2.1 e)
  unfold command_display
  rw [e1, e2]
  simp only [Except.bind, hr1, hr2, if_false]
  exact writeLine_lit "SYNTAX_ERROR" (by decide) w

/-- With an argument other than `ON` and `OFF`, `command_backlight` goes on to
the hexadecimal check. -/
theorem command_backlight_not_on_off (a junk : List Nat) (w : World) (h0 : 0 ∉ a)
    (hon : a ≠ bytes "ON") (hoff : a ≠ bytes "OFF") :
    command_backlight (some (a ++ 0 :: junk)) w =
      (cor (.ok false) <|
         cor ((idx (a ++ 0 :: junk) 0).map (· != 48)) <|
         cor ((idx (a ++ 0 :: junk) 1).map (· != 120)) <|
         cor ((idx (a ++ 0 :: junk) 2).map (fun c => !isHex c)) <|
         cor ((idx (a ++ 0 :: junk) 3).map (fun c => !isHex c)) <|
         (idx (a ++ 0 :: junk) 4).map (· != 0)).bind fun bad =>
          if bad then Ion.Console.writeLine sSyntaxError w
          else (hexNumber ((a ++ 0 :: junk).drop 2)).bind fun brightness =>
            Ion.Console.writeLine sOK (Ion.Backlight.setBrightness brightness w) := by
  obtain ⟨r1, h1, hiff1⟩ := strcmpP_cstr a (bytes "ON") junk h0 (by decide)
  obtain ⟨r2, h2, hiff2⟩ := strcmpP_cstr a (bytes "OFF") junk h0 (by decide)
  have e1 : strcmp (some (a ++ 0 :: junk)) (some sON) = .ok r1 := h1
  have e2 : strcmp (some (a ++ 0 :: junk)) (some sOFF) = .ok r2 := h2
  have hr1 : r1 ≠ 0 := fun e => hon (hiff1.1 e)
  have hr2 : r2 ≠ 0 := fun e => hoff (hiff2.1 e)
  unfold command_backlight
  rw [e1, e2]
  simp only [Except.bind, hr1, hr2, if_false, idxN, advance, Option.isNone_some]

/-- On `0x` and two uppercase hexadecimal digits `command_backlight` sets the
brightness to their value and answers `OK`. -/
theorem command_backlight_hex (ds junk : List Nat) (w : World) (hlen : ds.length = 2)
    (hds : ∀ d ∈ ds, UpperHexDigit d) :
    command_backlight (some (bytes "0x" ++ ds ++ 0 :: junk)) w =
      .ok { Ion.Backlight.setBrightness (hexValue ds) w with
            console := w.console ++ [bytes "OK"] } := by
  have hz : 0 ∉ bytes "0x" ++ ds := by
    intro hmem
    rcases List.mem_append.1 hmem with h | h
    · exact absurd h (by decide)
    · have := hds 0 h
      unfold UpperHexDigit at this
      omega
  have hne : ∀ t : List Nat, t.length ≠ 4 → bytes "0x" ++ ds ≠ t := by
    intro t ht e
    have := congrArg List.length e
    rw [List.length_append, hlen] at this
    exact ht this.symm
  rw [command_backlight_not_on_off (bytes "0x" ++ ds) junk w hz
    (hne _ (by decide)) (hne _ (by decide))]
  have hnum := hexNumber_digits ds junk hds
  have hlt : hexValue ds % 2 ^ 32 = hexValue ds := by
    apply Nat.mod_eq_of_lt
    have := hexValue_lt ds hds
    rw [hlen] at this
    omega
  rw [hlt] at hnum
  have hdrop : (bytes "0x" ++ ds ++ 0 :: junk).drop 2 = ds ++ 0 :: junk := by simp [bytes]
  rw [hdrop, hnum]
  match ds, hlen, hds with
  | [d1, d2], _, hds =>
    have i1 := (isHex_iff d1).2 (hds d1 (by simp))
    have i2 := (isHex_iff d2).2 (hds d2 (by simp))
    have hok := writeLine_lit "OK" (by decide)
    simp [idx, Except.map, cor_ok_ok, cor_ok_false, i1, i2, Except.bind,
      sOK, hok, Ion.Backlight.setBrightness, show bytes "0x" = [48, 120] from rfl]

/-- On any other present argument `command_backlight` answers `SYNTAX_ERROR`
and leaves the device alone. -/
theorem command_backlight_reject (a junk : List Nat) (w : World) (h0 : 0 ∉ a)
    (hon : a ≠ bytes "ON") (hoff : a ≠ bytes "OFF") (hhex : ¬ HexForm 2 a) :
    command_backlight (some (a ++ 0 :: junk)) w =
      .ok { w with console := w.console ++ [bytes "SYNTAX_ERROR"] } := by
  rw [command_backlight_not_on_off a junk w h0 hon hoff]
  have hse := writeLine_lit "SYNTAX_ERROR" (by decide) w
  clear hon hoff
  rcases a with _ | ⟨c0, _ | ⟨c1, _ | ⟨c2, _ | ⟨c3, _ | ⟨c4, a⟩⟩⟩⟩⟩
  all_goals try
    (simp [idx, Except.map, cor_ok_ok, cor_ok_false, cor_ok_true, isHex_zero, Except.bind,
      sSyntaxError, hse]; done)
  · -- exactly four characters
    have hbad : (c0 != 48 || (c1 != 120 || (!isHex c2 || !isHex c3))) = true := by
      by_contra hb
      apply hhex
      simp only [Bool.or_eq_true, bne_iff_ne, ne_eq, Bool.not_eq_true', not_or, not_not,
        Bool.not_eq_false] at hb
      obtain ⟨e0, e1, e2, e3⟩ := hb
      refine ⟨[c2, c3], by simp [bytes, e0, e1], rfl, ?_⟩
      intro d hd
      simp only [List.mem_cons, List.mem_singleton, List.not_mem_nil, or_false] at hd
      rcases hd with rfl | rfl
      all_goals simp [← isHex_iff, *]
    simp [idx, Except.map, cor_ok_ok, cor_ok_false, cor_ok_true, Except.bind, sSyntaxError, hse,
      hbad]
  · -- five characters or more
    have hc4 : c4 ≠ 0 := fun e => h0 (by simp [e])
    simp [idx, Except.map, cor_ok_ok, cor_ok_false, cor_ok_true, Except.bind, sSyntaxError, hse,
      hc4]

/-! ## The shape of a dispatch -/

/-- A list either has no element with a property, or splits at the first one. -/
theorem first_split (P : (List Nat × CommandFunction) → Prop) [DecidablePred P]
    (entries : List (List Nat × CommandFunction)) :
    (∀ e ∈ entries, ¬ P e) ∨
    ∃ pre e post, entries = pre ++ e :: post ∧ (∀ x ∈ pre, ¬ P x) ∧ P e := by
  induction entries with
  | nil => left; simp
  | cons x xs ih =>
    by_cases hx : P x
    · right; exact ⟨[], x, xs, rfl, by simp, hx⟩
    · rcases ih with h | ⟨pre, e, post, hsplit, hpre, he⟩
      · left
        intro e he
        rcases List.mem_cons.1 he with rfl | h2
        · exact hx
        · exact h e h2
      · right
        refine ⟨x :: pre, e, post, by simp [hsplit], ?_, he⟩
        intro y hy
        rcases List.mem_cons.1 hy with rfl | h2
        · exact hx
        · exact hpre y h2

/-- A NUL-free line that begins with a NUL-free name is the bare name, or the
name, `=` and an argument. -/
theorem line_of_beginsWith (name line junk : List Nat) (h0 : 0 ∉ name) (hl : 0 ∉ line)
    (hb : BeginsWith name (line ++ 0 :: junk)) :
    line = name ∨ ∃ a, line = name ++ 61 :: a ∧ 0 ∉ a := by
  obtain ⟨t, ht⟩ := hb.1
  have hget : (line ++ 0 :: junk).get? name.length = t.head? := by
    rw [← ht, List.get?_eq_getElem?, List.getElem?_append_right (le_refl _)]
    cases t <;> simp
  rcases List.append_eq_append_iff.1 ht with ⟨a, hla, hta⟩ | ⟨c, hnc, hjc⟩
  · cases a with
    | nil => left; simpa using hla
    | cons x a =>
      right
      have hx0 : x ≠ 0 := fun e => hl (by rw [hla, e]; simp)
      have ha0 : 0 ∉ a := fun e => hl (by rw [hla]; simp [e])
      have hhead : t.head? = some x := by rw [hta]; rfl
      have h2 := hb.2
      rw [hget, hhead] at h2
      rcases h2 with e | e
      · exact absurd (Option.some.inj e) hx0
      · exact ⟨a, by rw [hla, Option.some.inj e], ha0⟩
  · cases c with
    | nil => left; simpa using hnc.symm
    | cons y c =>
      exfalso
      have hy : y = 0 := by
        have := congrArg List.head? hjc
        simpa using this.symm
      exact h0 (by rw [hnc, hy]; simp)

/-- Every dispatch of a NUL-terminated line is `NOT_FOUND`, or one call of a
registered function on null (bare name) or on the bytes after `NAME=`. -/
theorem dispatch_cases (line junk : List Nat) (w : World) (hl : 0 ∉ line) :
    ((∀ e ∈ registered, ¬ BeginsWith e.1 (line ++ 0 :: junk)) ∧
      sCommandList.dispatch (line ++ 0 :: junk) w =
        .ok { w with console := w.console ++ [bytes "NOT_FOUND"] }) ∨
    ∃ e ∈ registered, BeginsWith e.1 (line ++ 0 :: junk) ∧
      ((line = e.1 ∧ sCommandList.dispatch (line ++ 0 :: junk) w = e.2 none w) ∨
       ∃ a, line = e.1 ++ 61 :: a ∧ 0 ∉ a ∧
         sCommandList.dispatch (line ++ 0 :: junk) w = e.2 (some (a ++ 0 :: junk)) w) := by
  have hfree : ∀ e ∈ registered, 0 ∉ e.1 := by decide
  rcases first_split (fun e => BeginsWith e.1 (line ++ 0 :: junk)) registered with
    h | ⟨pre, e, post, hsplit, hpre, he⟩
  · left
    exact ⟨h, dispatch_at_sentinel registered line junk w (fun e he => ⟨hfree e he, h e he⟩)⟩
  · right
    have hmem : e ∈ registered := by rw [hsplit]; simp
    have hpre2 : ∀ x ∈ pre, 0 ∉ x.1 ∧ ¬ BeginsWith x.1 (line ++ 0 :: junk) :=
      fun x hx => ⟨hfree x (by rw [hsplit]; simp [hx]), hpre x hx⟩
    have hd : sCommandList.dispatch (line ++ 0 :: junk) w =
        e.2 (if (line ++ 0 :: junk).get? e.1.length = some 61
          then some ((line ++ 0 :: junk).drop (e.1.length + 1)) else none) w := by
      have := dispatch_at_first_match pre post e.1 e.2 line junk w hpre2 (hfree e hmem) he
      rw [← this]
      show CommandList.dispatch ⟨mkTable registered⟩ _ _ = _
      rw [hsplit]
    refine ⟨e, hmem, he, ?_⟩
    rcases line_of_beginsWith e.1 line junk (hfree e hmem) hl he with hbare | ⟨a, ha, ha0⟩
    · left
      refine ⟨hbare, ?_⟩
      rw [hd, hbare]
      have hg : (e.1 ++ 0 :: junk).get? e.1.length = some 0 := by
        rw [List.get?_eq_getElem?, List.getElem?_append_right (le_refl _)]
        simp
      rw [hg]
      simp
    · right
      refine ⟨a, ha, ha0, ?_⟩
      rw [hd, ha]
      have hg : ((e.1 ++ 61 :: a) ++ 0 :: junk).get? e.1.length = some 61 := by
        rw [List.append_assoc, List.get?_eq_getElem?, List.getElem?_append_right (le_refl _)]
        simp
      rw [hg]
      simp

/-- Claim C11: the line `BACKLIGHT=` and a NUL-free argument reaches
`command_backlight` with that argument. `ON` is answered `OK` after the one
driver call `init`, `OFF` is answered `OK` after `shutdown`, `0x` and two
uppercase hexadecimal digits is answered `OK` after `setBrightness` with
sixteen times the first digit plus the second, a value of at most 255, and
every other argument is answered `SYNTAX_ERROR` with the device untouched. -/
theorem dispatch_backlight (a junk : List Nat) (w : World) (h0 : 0 ∉ a) :
    sCommandList.dispatch (bytes "BACKLIGHT=" ++ a ++ 0 :: junk) w =
      command_backlight (some (a ++ 0 :: junk)) w ∧
    (a = bytes "ON" →
      command_backlight (some (a ++ 0 :: junk)) w =
        .ok { w with backlightEnabled := true, ops := w.ops ++ [.backlightInit],
                     console := w.console ++ [bytes "OK"] }) ∧
    (a = bytes "OFF" →
      command_backlight (some (a ++ 0 :: junk)) w =
        .ok { w with backlightEnabled := false, ops := w.ops ++ [.backlightShutdown],
                     console := w.console ++ [bytes "OK"] }) ∧
    (∀ h1 h2, UpperHexDigit h1 → UpperHexDigit h2 → a = bytes "0x" ++ [h1, h2] →
      command_backlight (some (a ++ 0 :: junk)) w =
        .ok { w with brightness := 16 * hexDigitValue h1 + hexDigitValue h2,
                     ops := w.ops ++
                       [.backlightSetBrightness (16 * hexDigitValue h1 + hexDigitValue h2)],
                     console := w.console ++ [bytes "OK"] } ∧
      16 * hexDigitValue h1 + hexDigitValue h2 ≤ 255) ∧
    (¬ BacklightGrammar a →
      command_backlight (some (a ++ 0 :: junk)) w =
        .ok { w with console := w.console ++ [bytes "SYNTAX_ERROR"] }) := by
  refine ⟨?_, ?_, ?_, ?_, ?_⟩
  · have hline : bytes "BACKLIGHT=" ++ a ++ 0 :: junk =
        (bytes "BACKLIGHT" ++ 61 :: a) ++ 0 :: junk := by simp [bytes]
    rw [hline]
    refine (dispatch_at_first_match (registered.take 3) (registered.drop 4) (bytes "BACKLIGHT")
      command_backlight (bytes "BACKLIGHT" ++ 61 :: a) junk w
      (by simp [registered, bytes, BeginsWith]) (by decide) (by simp [bytes, BeginsWith])).trans ?_
    simp [bytes]
  · rintro rfl
    exact command_backlight_on junk w
  · rintro rfl
    exact command_backlight_off junk w
  · rintro h1 h2 u1 u2 rfl
    have v1 := (hexChar_upper h1 u1).2
    have v2 := (hexChar_upper h2 u2).2
    refine ⟨?_, by omega⟩
    have hds : ∀ d ∈ [h1, h2], UpperHexDigit d := by
      intro d hd
      simp only [List.mem_cons, List.mem_singleton, List.not_mem_nil, or_false] at hd
      rcases hd with rfl | rfl <;> assumption
    rw [command_backlight_hex [h1, h2] junk w rfl hds]
    have hv : hexValue [h1, h2] = 16 * hexDigitValue h1 + hexDigitValue h2 := by
      simp only [hexValue, List.length_cons, List.length_nil]
      ring
    rw [hv]
    rfl
  · intro hg
    exact command_backlight_reject a junk w h0 (fun e => hg (Or.inl e))
      (fun e => hg (Or.inr (Or.inl e))) (fun e => hg (Or.inr (Or.inr e)))

theorem dispatch_backlight_witness :
    sCommandList.dispatch (lit "BACKLIGHT=0xFF") World.idle =
      .ok { World.idle with brightness := 255, ops := [.backlightSetBrightness 255],
                            console := [bytes "OK"] } ∧
    sCommandList.dispatch (lit "BACKLIGHT=ON") World.idle =
      .ok { World.idle with backlightEnabled := true, ops := [.backlightInit],
                            console := [bytes "OK"] } ∧
    sCommandList.dispatch (lit "BACKLIGHT=0xff") World.idle =
      .ok { World.idle with console := [bytes "SYNTAX_ERROR"] } :=
  ⟨(dispatch_backlight (bytes "0xFF") [] World.idle (by decide)).1.trans
     ((dispatch_backlight (bytes "0xFF") [] World.idle (by decide)).2.2.2.1 70 70
       (by decide) (by decide) rfl).1,
   (dispatch_backlight (bytes "ON") [] World.idle (by decide)).1.trans
     ((dispatch_backlight (bytes "ON") [] World.idle (by decide)).2.1 rfl),
   (dispatch_backlight (bytes "0xff") [] World.idle (by decide)).1.trans
     ((dispatch_backlight (bytes "0xff") [] World.idle (by decide)).2.2.2.2
       (by simp [BacklightGrammar, HexForm, bytes, UpperHexDigit]))⟩

/-- Claim C12: on a present NUL-terminated argument `command_display` returns,
and its answer is `OK` exactly when the argument is `ON` or `OFF`: `ON` makes
the one driver call `init`, `OFF` the one driver call `shutdown`, and every
other argument is answered `SYNTAX_ERROR` with the device untouched. -/
theorem command_display_grammar (a junk : List Nat) (w : World) (h0 : 0 ∉ a) :
    (∃ w1, command_display (some (a ++ 0 :: junk)) w = .ok w1 ∧
      (w1.console = w.console ++ [bytes "OK"] ↔ (a = bytes "ON" ∨ a = bytes "OFF"))) ∧
    (a = bytes "ON" →
      command_display (some (a ++ 0 :: junk)) w =
        .ok { w with displayEnabled := true, ops := w.ops ++ [.displayInit],
                     console := w.console ++ [bytes "OK"] }) ∧
    (a = bytes "OFF" →
      command_display (some (a ++ 0 :: junk)) w =
        .ok { w with displayEnabled := false, ops := w.ops ++ [.displayShutdown],
                     console := w.console ++ [bytes "OK"] }) ∧
    (a ≠ bytes "ON" → a ≠ bytes "OFF" →
      command_display (some (a ++ 0 :: junk)) w =
        .ok { w with console := w.console ++ [bytes "SYNTAX_ERROR"] }) := by
  refine ⟨?_, ?_, ?_, ?_⟩
  · by_cases hon : a = bytes "ON"
    · subst hon
      exact ⟨_, command_display_on junk w, by simp⟩
    · by_cases hoff : a = bytes "OFF"
      · subst hoff
        exact ⟨_, command_display_off junk w, by simp⟩
      · refine ⟨_, command_display_reject a junk w h0 hon hoff, ?_⟩
        have hne : bytes "SYNTAX_ERROR" ≠ bytes "OK" := by decide
        simp [hon, hoff, hne]
  · rintro rfl
    exact command_display_on junk w
  · rintro rfl
    exact command_display_off junk w
  · exact fun hon hoff => command_display_reject a junk w h0 hon hoff

theorem command_display_grammar_witness :
    command_display (some (lit "ON")) World.idle =
      .ok { World.idle with displayEnabled := true, ops := [.displayInit],
                            console := [bytes "OK"] } ∧
    command_display (some (lit "0xFF")) World.idle =
      .ok { World.idle with console := [bytes "SYNTAX_ERROR"] } ∧
    command_display (some (lit "on")) World.idle =
      .ok { World.idle with console := [bytes "SYNTAX_ERROR"] } ∧
    command_display (some (lit "")) World.idle =
      .ok { World.idle with console := [bytes "SYNTAX_ERROR"] } :=
  ⟨(command_display_grammar (bytes "ON") [] World.idle (by decide)).2.1 rfl,
   (command_display_grammar (bytes "0xFF") [] World.idle (by decide)).2.2.2
     (by decide) (by decide),
   (command_display_grammar (bytes "on") [] World.idle (by decide)).2.2.2
     (by decide) (by decide),
   (command_display_grammar (bytes "") [] World.idle (by decide)).2.2.2
     (by decide) (by decide)⟩

/-- Claim C13, at the bare names `LED`, `BACKLIGHT` and `DISPLAY`: dispatch
calls the handler with a null argument, and each handler starts by handing
that null pointer to `strcmp`; the run faults there, before any line is
written. -/
theorem dispatch_bare_argument_command_derefs_null (junk : List Nat) (w : World) :
    command_led none w = .error .nullDeref ∧
    command_backlight none w = .error .nullDeref ∧
    command_display none w = .error .nullDeref ∧
    sCommandList.dispatch (bytes "LED" ++ 0 :: junk) w = command_led none w ∧
    sCommandList.dispatch (bytes "BACKLIGHT" ++ 0 :: junk) w = command_backlight none w ∧
    sCommandList.dispatch (bytes "DISPLAY" ++ 0 :: junk) w = command_display none w := by
  refine ⟨rfl, rfl, rfl, ?_, ?_, ?_⟩
  · refine (dispatch_at_first_match (registered.take 2) (registered.drop 3) (bytes "LED")
      command_led (bytes "LED") junk w (by simp [registered, bytes, BeginsWith])
      (by decide) (by simp [bytes, BeginsWith])).trans ?_
    simp [bytes]
  · refine (dispatch_at_first_match (registered.take 3) (registered.drop 4) (bytes "BACKLIGHT")
      command_backlight (bytes "BACKLIGHT") junk w (by simp [registered, bytes, BeginsWith])
      (by decide) (by simp [bytes, BeginsWith])).trans ?_
    simp [bytes]
  · refine (dispatch_at_first_match (registered.take 7) (registered.drop 8) (bytes "DISPLAY")
      command_display (bytes "DISPLAY") junk w (by simp [registered, bytes, BeginsWith])
      (by decide) (by simp [bytes, BeginsWith])).trans ?_
    simp [bytes]

/-! ## The keyboard loop -/

theorem set_at_length (l rest : List Nat) (x v : Nat) :
    (l ++ x :: rest).set l.length v = l ++ v :: rest := by
  induction l with
  | nil => rfl
  | cons a l ih => simp [ih]

/-- The loop of `command_keyboard` from key `i` on, with `k` keys left and at
least `k` counter values unused: it fills the `k` remaining characters and
polls each remaining key once. -/
theorem keyboardLoop_run (k : Nat) : ∀ (rounds i : Nat) (done : List Nat) (w : World),
    i + k = w.NumberOfKeys → w.NumberOfKeys ≤ 255 → k ≤ rounds → done.length = 9 + i →
    keyboardLoop rounds i (done ++ List.replicate (k + 1) 0) w =
      .ok (done ++ (List.range' i k).map (fun j => if w.keys j then 49 else 48) ++ [0],
           { w with ops := w.ops ++ (List.range' i k).map Op.keyDown }) := by
  induction k with
  | zero =>
    intro rounds i done w hi _ _ _
    have hnot : ¬ i < w.NumberOfKeys := by omega
    cases rounds <;> simp [keyboardLoop, hnot]
  | succ k ih =>
    intro rounds i done w hi hN hr hlen
    have hlt : i < w.NumberOfKeys := by omega
    obtain ⟨r, rfl⟩ : ∃ r, rounds = r + 1 := ⟨rounds - 1, by omega⟩
    have hmod : (i + 1) % 256 = i + 1 := Nat.mod_eq_of_lt (by omega)
    have hstore : ∀ v, store (done ++ List.replicate (k + 1 + 1) 0) (9 + i) v =
        .ok ((done ++ [v]) ++ List.replicate (k + 1) 0) := by
      intro v
      have hrep : List.replicate (k + 1 + 1) 0 = 0 :: List.replicate (k + 1) 0 := rfl
      have hin : 9 + i < (done ++ 0 :: List.replicate (k + 1) 0).length := by
        simp [hlen]
      rw [hrep]
      unfold store
      rw [if_pos hin, ← hlen, set_at_length]
      simp
    simp only [keyboardLoop, hlt, if_true, hstore, Except.bind, Ion.Keyboard.keyDown, hmod]
    rw [ih r (i + 1) _ _ (by simp; omega) (by simpa using hN) (by omega) (by simp [hlen]; omega)]
    simp [List.range'_succ]

/-- The handler `command_keyboard` on a null argument, for a key count the
`uint8_t` counter can reach. -/
theorem command_keyboard_none (w : World) (hN : w.NumberOfKeys ≤ 255) :
    command_keyboard none w =
      .ok { w with ops := w.ops ++ (List.range w.NumberOfKeys).map Op.keyDown,
                   console := w.console ++ [bytes "KEYBOARD=" ++ keyBits w] } := by
  have hrun := keyboardLoop_run w.NumberOfKeys 256 0 (bytes "KEYBOARD=") w (by simp) hN
    (by omega) (by decide)
  have hbits : (List.range' 0 w.NumberOfKeys).map (fun j => if w.keys j then 49 else 48) =
      keyBits w := by
    simp [keyBits, List.range_eq_range']
  have hops : (List.range' 0 w.NumberOfKeys).map Op.keyDown =
      (List.range w.NumberOfKeys).map Op.keyDown := by
    simp [List.range_eq_range']
  rw [hbits, hops] at hrun
  have hlen : (bytes "KEYBOARD=" ++ keyBits w).length = 9 + w.NumberOfKeys := by
    simp [keyBits, bytes]
    omega
  have hstore : store (bytes "KEYBOARD=" ++ keyBits w ++ [0]) (9 + w.NumberOfKeys) 0 =
      .ok (bytes "KEYBOARD=" ++ keyBits w ++ [0]) := by
    unfold store
    rw [if_pos (by rw [List.length_append, hlen]; simp), ← hlen, set_at_length]
  have h0 : 0 ∉ bytes "KEYBOARD=" ++ keyBits w := by
    intro hmem
    rcases List.mem_append.1 hmem with h | h
    · exact absurd h (by decide)
    · simp only [keyBits, List.mem_map] at h
      obtain ⟨j, _, hj⟩ := h
      split_ifs at hj
  have hw := writeLine_cstr (bytes "KEYBOARD=" ++ keyBits w) [] h0
    { w with ops := w.ops ++ (List.range w.NumberOfKeys).map Op.keyDown }
  unfold command_keyboard
  simp only [Option.isSome_none, Bool.false_eq_true, if_false, hrun, Except.bind, hstore]
  exact hw

/-- Claim C14: for every keyboard state, with a key count `N` that the
`uint8_t` loop counter can reach (at most 255), the line `KEYBOARD` polls each
key once in index order and is answered `KEYBOARD=` followed by exactly `N`
characters, the `i`-th being `1` (49) when key `i` is down and `0` (48) when
not; with all keys released the payload is `N` characters `0`. -/
theorem dispatch_keyboard (junk : List Nat) (w : World) (hN : w.NumberOfKeys ≤ 255) :
    sCommandList.dispatch (bytes "KEYBOARD" ++ 0 :: junk) w =
      .ok { w with ops := w.ops ++ (List.range w.NumberOfKeys).map Op.keyDown,
                   console := w.console ++ [bytes "KEYBOARD=" ++ keyBits w] } ∧
    (keyBits w).length = w.NumberOfKeys ∧
    (∀ i, i < w.NumberOfKeys → (keyBits w).get? i = some (if w.keys i then 49 else 48)) ∧
    ((∀ i, i < w.NumberOfKeys → w.keys i = false) →
      keyBits w = List.replicate w.NumberOfKeys 48) := by
  refine ⟨?_, by simp [keyBits], ?_, ?_⟩
  · refine (dispatch_at_first_match (registered.take 6) (registered.drop 7) (bytes "KEYBOARD")
      command_keyboard (bytes "KEYBOARD") junk w (by simp [registered, bytes, BeginsWith])
      (by decide) (by simp [bytes, BeginsWith])).trans ?_
    have harg : (if (bytes "KEYBOARD" ++ 0 :: junk).get? (bytes "KEYBOARD").length = some 61
        then some ((bytes "KEYBOARD" ++ 0 :: junk).drop ((bytes "KEYBOARD").length + 1))
        else none) = none := by
      simp [bytes]
    rw [harg]
    exact command_keyboard_none w hN
  · intro i hi
    simp [keyBits, List.getElem?_range hi]
  · intro hall
    apply List.ext_get
    · simp [keyBits]
    · intro n h1 h2
      have hn : n < w.NumberOfKeys := by simpa [keyBits] using h1
      simp [keyBits, hall n hn]

theorem dispatch_keyboard_witness :
    sCommandList.dispatch (bytes "KEYBOARD" ++ 0 :: []) World.idle =
      .ok { World.idle with
            ops := World.idle.ops ++ (List.range World.idle.NumberOfKeys).map Op.keyDown,
            console := World.idle.console ++ [bytes "KEYBOARD=" ++ keyBits World.idle] } ∧
    keyBits World.idle = List.replicate 54 48 :=
  ⟨(dispatch_keyboard [] World.idle (by decide)).1,
   (dispatch_keyboard [] World.idle (by decide)).2.2.2 (fun _ _ => rfl)⟩

/-! ## More on hexadecimal values and on the serial number -/

theorem hexValue_append (xs ys : List Nat) :
    hexValue (xs ++ ys) = hexValue xs * 16 ^ ys.length + hexValue ys := by
  induction xs with
  | nil => simp [hexValue]
  | cons x xs ih =>
    show hexDigitValue x * 16 ^ (xs ++ ys).length + hexValue (xs ++ ys) =
      (hexDigitValue x * 16 ^ xs.length + hexValue xs) * 16 ^ ys.length + hexValue ys
    rw [ih, List.length_append, pow_add]
    ring

/-- The response buffer of `command_mcu_serial` after `strlcpy`, and the line
written from it. -/
theorem command_mcu_serial_none (s junk : List Nat) (w : World) (h0 : 0 ∉ s)
    (hs : w.serial = s ++ 0 :: junk) :
    command_mcu_serial none w =
      .ok { w with ops := w.ops ++ [.serialNumber],
                   console := w.console ++ [bytes "MCU_SERIAL=" ++ s.take 24] } := by
  have hlen := strlen_cstr s junk h0
  have hk : min s.length 24 ≤ s.length := Nat.min_le_left _ _
  have htake : (s ++ 0 :: junk).take (min s.length 24) = s.take 24 := by
    rw [List.take_append_of_le_length hk]
    rcases Nat.le_total s.length 24 with h | h
    · rw [Nat.min_eq_left h, List.take_of_length_le (le_refl _), List.take_of_length_le h]
    · rw [Nat.min_eq_right h]
  have hcopy : strlcpy (bytes "MCU_SERIAL=" ++ List.replicate (24 + 1) 0) 11 (s ++ 0 :: junk) 25 =
      .ok (bytes "MCU_SERIAL=" ++ s.take 24 ++
        0 :: List.drop (11 + min s.length 24 + 1)
          (bytes "MCU_SERIAL=" ++ List.replicate (24 + 1) 0)) := by
    have hin : 11 + min s.length (25 - 1) <
        (bytes "MCU_SERIAL=" ++ List.replicate (24 + 1) 0).length := by
      have : min s.length (25 - 1) ≤ 24 := Nat.min_le_right _ _
      simp [bytes]
      omega
    unfold strlcpy
    rw [hlen]
    simp only [Except.bind, show (25 : Nat) ≠ 0 by decide, if_false, hin, if_true]
    have h11 : List.take 11 (bytes "MCU_SERIAL=" ++ List.replicate (24 + 1) 0) =
        bytes "MCU_SERIAL=" := by
      simp [bytes]
    rw [h11, show (25 : Nat) - 1 = 24 from rfl, htake]
    simp
  have hz : 0 ∉ bytes "MCU_SERIAL=" ++ s.take 24 := by
    intro hmem
    rcases List.mem_append.1 hmem with h | h
    · exact absurd h (by decide)
    · exact h0 (List.mem_of_mem_take h)
  have := writeLine_cstr (bytes "MCU_SERIAL=" ++ s.take 24)
    (List.drop (11 + min s.length 24 + 1) (bytes "MCU_SERIAL=" ++ List.replicate (24 + 1) 0)) hz
    { w with ops := w.ops ++ [.serialNumber] }
  unfold command_mcu_serial
  simp only [Option.isSome_none, Bool.false_eq_true, if_false]
  rw [show (Ion.serialNumber w).1 = s ++ 0 :: junk from hs, hcopy]
  exact this

/-- Claim C16: `hexChar` maps `0`..`9` (48..57) to 0..9, `A`..`F` (65..70) to
10..15 and every other character to -1; so `isHex` holds for exactly the
sixteen characters `0123456789ABCDEF`, and fails for `a`..`f` (97..102) and
for the terminator. -/
theorem hexChar_isHex_spec (c : Nat) :
    (48 ≤ c ∧ c ≤ 57 → hexChar c = (c : Int) - 48 ∧ 0 ≤ hexChar c ∧ hexChar c ≤ 9) ∧
    (65 ≤ c ∧ c ≤ 70 → hexChar c = (c : Int) - 65 + 10 ∧ 10 ≤ hexChar c ∧ hexChar c ≤ 15) ∧
    (¬ (48 ≤ c ∧ c ≤ 57) → ¬ (65 ≤ c ∧ c ≤ 70) → hexChar c = -1) ∧
    (isHex c = true ↔ c ∈ bytes "0123456789ABCDEF") ∧
    (97 ≤ c ∧ c ≤ 102 → isHex c = false) ∧
    (c = 0 → isHex c = false) := by
  refine ⟨?_, ?_, ?_, ?_, ?_, ?_⟩
  · intro h
    unfold hexChar
    rw [if_pos h]
    omega
  · intro h
    have h1 : ¬ (48 ≤ c ∧ c ≤ 57) := by omega
    unfold hexChar
    rw [if_neg h1, if_pos h]
    omega
  · intro h1 h2
    unfold hexChar
    rw [if_neg h1, if_neg h2]
  · rw [isHex_iff]
    unfold UpperHexDigit
    simp only [bytes, String.toList, List.map_cons, List.map_nil, List.mem_cons,
      List.mem_singleton, List.not_mem_nil, or_false]
    simp only [Char.reduceToNat]
    omega
  · intro h
    have hn : ¬ UpperHexDigit c := by unfold UpperHexDigit; omega
    cases hx : isHex c
    · rfl
    · exact absurd ((isHex_iff c).1 hx) hn
  · rintro rfl
    exact isHex_zero

theorem hexChar_isHex_spec_witness :
    (hexChar 55 = 7 ∧ 0 ≤ hexChar 55 ∧ hexChar 55 ≤ 9) ∧
    (hexChar 70 = 15 ∧ 10 ≤ hexChar 70 ∧ hexChar 70 ≤ 15) ∧
    hexChar 102 = -1 ∧
    isHex 97 = false :=
  ⟨(hexChar_isHex_spec 55).1 (by decide),
   (hexChar_isHex_spec 70).2.1 (by decide),
   (hexChar_isHex_spec 102).2.2.1 (by decide) (by decide),
   (hexChar_isHex_spec 97).2.2.2.2.1 (by decide)⟩

/-- Claim C17: on a NUL-terminated string of uppercase hexadecimal digits,
`hexNumber` returns the number the digits denote (most significant first)
modulo 2^32: the number itself for at most eight digits, and the number
denoted by the last eight digits for more. -/
theorem hexNumber_value (ds junk : List Nat) (hds : ∀ d ∈ ds, UpperHexDigit d) :
    hexNumber (ds ++ 0 :: junk) = .ok (hexValue ds % 2 ^ 32) ∧
    (ds.length ≤ 8 → hexNumber (ds ++ 0 :: junk) = .ok (hexValue ds)) ∧
    (8 < ds.length →
      hexNumber (ds ++ 0 :: junk) = .ok (hexValue (ds.drop (ds.length - 8)))) := by
  have hmain := hexNumber_digits ds junk hds
  refine ⟨hmain, ?_, ?_⟩
  · intro hlen
    rw [hmain, Nat.mod_eq_of_lt]
    have h1 := hexValue_lt ds hds
    have h2 : 16 ^ ds.length ≤ 16 ^ 8 := Nat.pow_le_pow_right (by norm_num) hlen
    have h3 : (16 : Nat) ^ 8 = 2 ^ 32 := by norm_num
    omega
  · intro hlen
    rw [hmain]
    have hsplit : ds = ds.take (ds.length - 8) ++ ds.drop (ds.length - 8) :=
      (List.take_append_drop _ _).symm
    have hdl : (ds.drop (ds.length - 8)).length = 8 := by
      rw [List.length_drop]; omega
    have hlow := hexValue_lt (ds.drop (ds.length - 8))
      (fun d hd => hds d (List.mem_of_mem_drop hd))
    rw [hdl] at hlow
    have hval : hexValue ds = hexValue (ds.take (ds.length - 8)) * 2 ^ 32 +
        hexValue (ds.drop (ds.length - 8)) := by
      conv_lhs => rw [hsplit]
      rw [hexValue_append, hdl]
      norm_num
    rw [hval, Nat.mul_add_mod_of_lt (by norm_num at hlow ⊢; exact hlow)]

theorem hexNumber_value_witness :
    hexNumber (lit "1FF") = .ok 511 ∧
    hexNumber (lit "123456789") = .ok 0x23456789 :=
  ⟨(hexNumber_value (bytes "1FF") [] (by decide)).2.1 (by decide),
   (hexNumber_value (bytes "123456789") [] (by decide)).2.2 (by decide)⟩

/-- Claim C18: for every NUL-terminated serial number, `command_mcu_serial` on
a null argument reads the serial once and writes `MCU_SERIAL=` followed by its
first `min(length, 24)` characters; the copy stays inside the 36-byte response
buffer, and the line has at most 35 characters. -/
theorem command_mcu_serial_response (s junk : List Nat) (w : World) (h0 : 0 ∉ s)
    (hs : w.serial = s ++ 0 :: junk) :
    command_mcu_serial none w =
      .ok { w with ops := w.ops ++ [.serialNumber],
                   console := w.console ++ [bytes "MCU_SERIAL=" ++ s.take 24] } ∧
    (s.take 24).length = min s.length 24 ∧
    (bytes "MCU_SERIAL=" ++ s.take 24).length ≤ 35 ∧
    (bytes "MCU_SERIAL=" ++ s.take 24).length + 1 ≤ 11 + 24 + 1 := by
  have hl : (s.take 24).length = min s.length 24 := by
    rw [List.length_take, Nat.min_comm]
  have hle : min s.length 24 ≤ 24 := Nat.min_le_right _ _
  have hb : (bytes "MCU_SERIAL=").length = 11 := by decide
  refine ⟨command_mcu_serial_none s junk w h0 hs, hl, ?_, ?_⟩
  · rw [List.length_append, hl, hb]; omega
  · rw [List.length_append, hl, hb]; omega

theorem command_mcu_serial_response_witness :
    command_mcu_serial none World.idle =
      .ok { World.idle with
            ops := World.idle.ops ++ [.serialNumber],
            console := World.idle.console ++
              [bytes "MCU_SERIAL=" ++ (bytes "0123456789ABCDEF01234567").take 24] } ∧
    ((bytes "0123456789ABCDEF01234567").take 24).length =
      min (bytes "0123456789ABCDEF01234567").length 24 ∧
    (bytes "MCU_SERIAL=" ++ (bytes "0123456789ABCDEF01234567").take 24).length ≤ 35 ∧
    (bytes "MCU_SERIAL=" ++ (bytes "0123456789ABCDEF01234567").take 24).length + 1 ≤
      11 + 24 + 1 :=
  command_mcu_serial_response (bytes "0123456789ABCDEF01234567") [] World.idle (by decide) rfl

/-! ## What each handler can change -/

theorem writeLine_frame (s : CPtr) (w w1 : World) (h : Ion.Console.writeLine s w = .ok w1) :
    w1.led = w.led ∧ w1.backlight = w.backlight ∧ w1.display = w.display := by
  unfold Ion.Console.writeLine at h
  cases hs : strlen s with
  | error e => rw [hs] at h; exact absurd h (by simp)
  | ok n =>
    rw [hs] at h
    have h2 := Except.ok.inj h
    subst h2
    exact ⟨rfl, rfl, rfl⟩

theorem keyboardLoop_frame (rounds : Nat) : ∀ (i : Nat) (r : List Nat) (w : World)
    (r1 : List Nat) (w1 : World), keyboardLoop rounds i r w = .ok (r1, w1) →
    w1.led = w.led ∧ w1.backlight = w.backlight ∧ w1.display = w.display := by
  induction rounds with
  | zero =>
    intro i r w r1 w1 h
    unfold keyboardLoop at h
    split_ifs at h
    have h2 := Except.ok.inj h
    have h3 : w = w1 := congrArg Prod.snd h2
    subst h3
    exact ⟨rfl, rfl, rfl⟩
  | succ rounds ih =>
    intro i r w r1 w1 h
    unfold keyboardLoop at h
    by_cases hlt : i < w.NumberOfKeys
    · rw [if_pos hlt] at h
      generalize store r (9 + i) _ = st at h
      cases st with
      | error e => exact absurd h (by simp [Except.bind])
      | ok r2 =>
        have h2 : keyboardLoop rounds ((i + 1) % 256) r2 (Ion.Keyboard.keyDown i w).2 =
            .ok (r1, w1) := h
        have h3 := ih _ _ _ _ _ h2
        exact h3
    · rw [if_neg hlt] at h
      have h2 := Except.ok.inj h
      have h3 : w = w1 := congrArg Prod.snd h2
      subst h3
      exact ⟨rfl, rfl, rfl⟩

/-- The five handlers that accept only a null argument never change the LED,
the backlight or the display, whatever they are given. -/
theorem noArg_frame (input : Option CPtr) (w w1 : World) :
    (command_ping input w = .ok w1 ∨ command_mcu_serial input w = .ok w1 ∨
      command_adc input w = .ok w1 ∨ command_charge input w = .ok w1 ∨
      command_keyboard input w = .ok w1) →
    w1.led = w.led ∧ w1.backlight = w.backlight ∧ w1.display = w.display := by
  rintro (h | h | h | h | h)
  · unfold command_ping at h
    split_ifs at h <;> exact writeLine_frame _ _ _ h
  · unfold command_mcu_serial at h
    split_ifs at h
    · exact writeLine_frame _ _ _ h
    · generalize strlcpy _ 11 (Ion.serialNumber w).1 25 = st at h
      cases st with
      | error e => exact absurd h (by simp [Except.bind])
      | ok r =>
        have h2 : Ion.Console.writeLine r (Ion.serialNumber w).2 = .ok w1 := h
        have h3 := writeLine_frame _ _ _ h2
        exact h3
  · unfold command_adc at h
    split_ifs at h
    · exact writeLine_frame _ _ _ h
    · have h3 := writeLine_frame _ _ _ h
      exact h3
  · unfold command_charge at h
    split_ifs at h
    · exact writeLine_frame _ _ _ h
    · have h3 := writeLine_frame _ _ _ h
      exact h3
    · have h3 := writeLine_frame _ _ _ h
      exact h3
  · unfold command_keyboard at h
    split_ifs at h
    · exact writeLine_frame _ _ _ h
    · cases hk : keyboardLoop 256 0 (bytes "KEYBOARD=" ++ List.replicate (w.NumberOfKeys + 1) 0) w with
      | error e => rw [hk] at h; exact absurd h (by simp [Except.bind])
      | ok rw1 =>
        rw [hk] at h
        have h2 : ((store rw1.1 (9 + w.NumberOfKeys) 0).bind fun r =>
            Ion.Console.writeLine r rw1.2) = .ok w1 := h
        generalize store rw1.1 (9 + w.NumberOfKeys) 0 = st at h2
        cases st with
        | error e => exact absurd h2 (by simp [Except.bind])
        | ok r2 =>
          have h3 : Ion.Console.writeLine r2 rw1.2 = .ok w1 := h2
          have h4 := writeLine_frame _ _ _ h3
          have h5 := keyboardLoop_frame 256 0 _ w rw1.1 rw1.2 hk
          exact ⟨h4.1.trans h5.1, h4.2.1.trans h5.2.1, h4.2.2.trans h5.2.2⟩

/-- On a present argument `command_led` returns; it leaves backlight and
display alone, and either answers `OK` or answers `SYNTAX_ERROR` with the whole
device untouched. -/
theorem command_led_present (a junk : List Nat) (w : World) (h0 : 0 ∉ a) :
    ∃ w1, command_led (some (a ++ 0 :: junk)) w = .ok w1 ∧
      w1.backlight = w.backlight ∧ w1.display = w.display ∧
      (w1.console = w.console ++ [bytes "OK"] ∨
        w1 = { w with console := w.console ++ [bytes "SYNTAX_ERROR"] }) := by
  by_cases hon : a = bytes "ON"
  · subst hon
    exact ⟨_, command_led_on junk w, rfl, rfl, Or.inl rfl⟩
  by_cases hoff : a = bytes "OFF"
  · subst hoff
    exact ⟨_, command_led_off junk w, rfl, rfl, Or.inl rfl⟩
  by_cases hhex : HexForm 6 a
  · obtain ⟨ds, rfl, hlen, hds⟩ := hhex
    exact ⟨_, command_led_hex ds junk w hlen hds, rfl, rfl, Or.inl rfl⟩
  · exact ⟨_, command_led_reject a junk w h0 hon hoff hhex, rfl, rfl, Or.inr rfl⟩

/-- On a present argument `command_backlight` returns; it leaves LED and
display alone, and either answers `OK` or answers `SYNTAX_ERROR` with the whole
device untouched. -/
theorem command_backlight_present (a junk : List Nat) (w : World) (h0 : 0 ∉ a) :
    ∃ w1, command_backlight (some (a ++ 0 :: junk)) w = .ok w1 ∧
      w1.led = w.led ∧ w1.display = w.display ∧
      (w1.console = w.console ++ [bytes "OK"] ∨
        w1 = { w with console := w.console ++ [bytes "SYNTAX_ERROR"] }) := by
  by_cases hon : a = bytes "ON"
  · subst hon
    exact ⟨_, command_backlight_on junk w, rfl, rfl, Or.inl rfl⟩
  by_cases hoff : a = bytes "OFF"
  · subst hoff
    exact ⟨_, command_backlight_off junk w, rfl, rfl, Or.inl rfl⟩
  by_cases hhex : HexForm 2 a
  · obtain ⟨ds, rfl, hlen, hds⟩ := hhex
    exact ⟨_, command_backlight_hex ds junk w hlen hds, rfl, rfl, Or.inl rfl⟩
  · exact ⟨_, command_backlight_reject a junk w h0 hon hoff hhex, rfl, rfl, Or.inr rfl⟩

/-- On a present argument `command_display` returns; it leaves LED and
backlight alone, and either answers `OK` or answers `SYNTAX_ERROR` with the
whole device untouched. -/
theorem command_display_present (a junk : List Nat) (w : World) (h0 : 0 ∉ a) :
    ∃ w1, command_display (some (a ++ 0 :: junk)) w = .ok w1 ∧
      w1.led = w.led ∧ w1.backlight = w.backlight ∧
      (w1.console = w.console ++ [bytes "OK"] ∨
        w1 = { w with console := w.console ++ [bytes "SYNTAX_ERROR"] }) := by
  by_cases hon : a = bytes "ON"
  · subst hon
    exact ⟨_, command_display_on junk w, rfl, rfl, Or.inl rfl⟩
  by_cases hoff : a = bytes "OFF"
  · subst hoff
    exact ⟨_, command_display_off junk w, rfl, rfl, Or.inl rfl⟩
  · exact ⟨_, command_display_reject a junk w h0 hon hoff, rfl, rfl, Or.inr rfl⟩

/-- Every dispatch that returns either leaves LED, backlight and display as
they were, or answers `OK` to an `LED`, `BACKLIGHT` or `DISPLAY` line and
leaves the two other subsystems as they were. -/
theorem dispatch_summary (line junk : List Nat) (w w1 : World) (hl : 0 ∉ line)
    (hd : sCommandList.dispatch (line ++ 0 :: junk) w = .ok w1) :
    (w1.led = w.led ∧ w1.backlight = w.backlight ∧ w1.display = w.display) ∨
    (w1.console = w.console ++ [bytes "OK"] ∧
      ((BeginsWith (bytes "LED") (line ++ 0 :: junk) ∧
          w1.backlight = w.backlight ∧ w1.display = w.display) ∨
       (BeginsWith (bytes "BACKLIGHT") (line ++ 0 :: junk) ∧
          w1.led = w.led ∧ w1.display = w.display) ∨
       (BeginsWith (bytes "DISPLAY") (line ++ 0 :: junk) ∧
          w1.led = w.led ∧ w1.backlight = w.backlight))) := by
  have hnull : command_led none w = .error .nullDeref ∧
      command_backlight none w = .error .nullDeref ∧
      command_display none w = .error .nullDeref := ⟨rfl, rfl, rfl⟩
  rcases dispatch_cases line junk w hl with ⟨_, hnf⟩ | ⟨e, hmem, hb, hcase⟩
  · left
    have h2 := Except.ok.inj (hnf.symm.trans hd)
    subst h2
    exact ⟨rfl, rfl, rfl⟩
  · simp only [registered, List.mem_cons, List.mem_singleton, List.not_mem_nil, or_false] at hmem
    rcases hmem with rfl | rfl | rfl | rfl | rfl | rfl | rfl | rfl
    · -- PING
      left
      rcases hcase with ⟨_, hdisp⟩ | ⟨a, _, _, hdisp⟩
      · exact noArg_frame none w w1 (Or.inl (hdisp.symm.trans hd))
      · exact noArg_frame (some (a ++ 0 :: junk)) w w1 (Or.inl (hdisp.symm.trans hd))
    · -- MCU_SERIAL
      left
      rcases hcase with ⟨_, hdisp⟩ | ⟨a, _, _, hdisp⟩
      · exact noArg_frame none w w1 (Or.inr (Or.inl (hdisp.symm.trans hd)))
      · exact noArg_frame (some (a ++ 0 :: junk)) w w1 (Or.inr (Or.inl (hdisp.symm.trans hd)))
    · -- LED
      rcases hcase with ⟨_, hdisp⟩ | ⟨a, _, ha0, hdisp⟩
      · have h2 : command_led none w = .ok w1 := hdisp.symm.trans hd
        rw [hnull.1] at h2
        exact absurd h2 (by simp)
      · obtain ⟨w2, h2, hbl, hdp, hresp⟩ := command_led_present a junk w ha0
        have h3 : command_led (some (a ++ 0 :: junk)) w = .ok w1 := hdisp.symm.trans hd
        have h4 : w2 = w1 := Except.ok.inj (h2.symm.trans h3)
        subst h4
        rcases hresp with hok | hun
        · exact Or.inr ⟨hok, Or.inl ⟨hb, hbl, hdp⟩⟩
        · left
          rw [hun]
          exact ⟨rfl, rfl, rfl⟩
    · -- BACKLIGHT
      rcases hcase with ⟨_, hdisp⟩ | ⟨a, _, ha0, hdisp⟩
      · have h2 : command_backlight none w = .ok w1 := hdisp.symm.trans hd
        rw [hnull.2.1] at h2
        exact absurd h2 (by simp)
      · obtain ⟨w2, h2, hled, hdp, hresp⟩ := command_backlight_present a junk w ha0
        have h3 : command_backlight (some (a ++ 0 :: junk)) w = .ok w1 := hdisp.symm.trans hd
        have h4 : w2 = w1 := Except.ok.inj (h2.symm.trans h3)
        subst h4
        rcases hresp with hok | hun
        · exact Or.inr ⟨hok, Or.inr (Or.inl ⟨hb, hled, hdp⟩)⟩
        · left
          rw [hun]
          exact ⟨rfl, rfl, rfl⟩
    · -- ADC
      left
      rcases hcase with ⟨_, hdisp⟩ | ⟨a, _, _, hdisp⟩
      · exact noArg_frame none w w1 (Or.inr (Or.inr (Or.inl (hdisp.symm.trans hd))))
      · exact noArg_frame (some (a ++ 0 :: junk)) w w1 (Or.inr (Or.inr (Or.inl (hdisp.symm.trans hd))))
    · -- CHARGE
      left
      rcases hcase with ⟨_, hdisp⟩ | ⟨a, _, _, hdisp⟩
      · exact noArg_frame none w w1 (Or.inr (Or.inr (Or.inr (Or.inl (hdisp.symm.trans hd)))))
      · exact noArg_frame (some (a ++ 0 :: junk)) w w1 (Or.inr (Or.inr (Or.inr (Or.inl (hdisp.symm.trans hd)))))
    · -- KEYBOARD
      left
      rcases hcase with ⟨_, hdisp⟩ | ⟨a, _, _, hdisp⟩
      · exact noArg_frame none w w1 (Or.inr (Or.inr (Or.inr (Or.inr (hdisp.symm.trans hd)))))
      · exact noArg_frame (some (a ++ 0 :: junk)) w w1 (Or.inr (Or.inr (Or.inr (Or.inr (hdisp.symm.trans hd)))))
    · -- DISPLAY
      rcases hcase with ⟨_, hdisp⟩ | ⟨a, _, ha0, hdisp⟩
      · have h2 : command_display none w = .ok w1 := hdisp.symm.trans hd
        rw [hnull.2.2] at h2
        exact absurd h2 (by simp)
      · obtain ⟨w2, h2, hled, hbl, hresp⟩ := command_display_present a junk w ha0
        have h3 : command_display (some (a ++ 0 :: junk)) w = .ok w1 := hdisp.symm.trans hd
        have h4 : w2 = w1 := Except.ok.inj (h2.symm.trans h3)
        subst h4
        rcases hresp with hok | hun
        · exact Or.inr ⟨hok, Or.inr (Or.inr ⟨hb, hled, hbl⟩)⟩
        · left
          rw [hun]
          exact ⟨rfl, rfl, rfl⟩

/-- Two registered names that a buffer both begins with are the same name. -/
theorem registered_name_unique (cmd : CPtr) (n1 n2 : List Nat)
    (h1 : n1 ∈ registered.map Prod.fst) (h2 : n2 ∈ registered.map Prod.fst)
    (hb1 : BeginsWith n1 cmd) (hb2 : BeginsWith n2 cmd) : n1 = n2 := by
  have hfree : ∀ n ∈ registered.map Prod.fst, 0 ∉ n ∧ 61 ∉ n := by decide
  exact beginsWith_unique n1 n2 cmd (hfree n1 h1) (hfree n2 h2) hb1 hb2

/-- Claim C15: whenever a dispatch of a NUL-terminated line answers
`SYNTAX_ERROR` or `NOT_FOUND`, the LED enabled flag and colour, the backlight
enabled flag and brightness, and the display enabled flag are what they were
before the dispatch. -/
theorem error_response_no_side_effect (line junk : List Nat) (w w1 : World) (hl : 0 ∉ line)
    (hd : sCommandList.dispatch (line ++ 0 :: junk) w = .ok w1)
    (hresp : w1.console = w.console ++ [bytes "SYNTAX_ERROR"] ∨
      w1.console = w.console ++ [bytes "NOT_FOUND"]) :
    w1.ledEnabled = w.ledEnabled ∧ w1.ledColor = w.ledColor ∧
    w1.backlightEnabled = w.backlightEnabled ∧ w1.brightness = w.brightness ∧
    w1.displayEnabled = w.displayEnabled := by
  rcases dispatch_summary line junk w w1 hl hd with ⟨hled, hbl, hdp⟩ | ⟨hok, _⟩
  · exact ⟨congrArg Prod.fst hled, congrArg Prod.snd hled, congrArg Prod.fst hbl,
      congrArg Prod.snd hbl, hdp⟩
  · exfalso
    rcases hresp with h | h
    · have h2 := List.append_cancel_left (hok.symm.trans h)
      exact absurd h2 (by decide)
    · have h2 := List.append_cancel_left (hok.symm.trans h)
      exact absurd h2 (by decide)

theorem error_response_no_side_effect_witness :
    ({ World.idle with console := [bytes "SYNTAX_ERROR"] } : World).ledEnabled =
      World.idle.ledEnabled ∧
    ({ World.idle with console := [bytes "SYNTAX_ERROR"] } : World).ledColor =
      World.idle.ledColor ∧
    ({ World.idle with console := [bytes "SYNTAX_ERROR"] } : World).backlightEnabled =
      World.idle.backlightEnabled ∧
    ({ World.idle with console := [bytes "SYNTAX_ERROR"] } : World).brightness =
      World.idle.brightness ∧
    ({ World.idle with console := [bytes "SYNTAX_ERROR"] } : World).displayEnabled =
      World.idle.displayEnabled :=
  error_response_no_side_effect (bytes "LED=0x11223") [] World.idle
    { World.idle with console := [bytes "SYNTAX_ERROR"] } (by decide) rfl (Or.inl rfl)

/-- Claim C20: a dispatch of a NUL-terminated line that returns changes at
most the subsystem its command names: an `LED` line leaves backlight and
display as they were, a `BACKLIGHT` line leaves LED and display as they were,
a `DISPLAY` line leaves LED and backlight as they were, and a `PING`,
`MCU_SERIAL`, `ADC`, `CHARGE` or `KEYBOARD` line leaves all three as they
were. -/
theorem dispatch_frame (line junk : List Nat) (w w1 : World) (hl : 0 ∉ line)
    (hd : sCommandList.dispatch (line ++ 0 :: junk) w = .ok w1) :
    (BeginsWith (bytes "LED") (line ++ 0 :: junk) →
      w1.backlightEnabled = w.backlightEnabled ∧ w1.brightness = w.brightness ∧
      w1.displayEnabled = w.displayEnabled) ∧
    (BeginsWith (bytes "BACKLIGHT") (line ++ 0 :: junk) →
      w1.ledEnabled = w.ledEnabled ∧ w1.ledColor = w.ledColor ∧
      w1.displayEnabled = w.displayEnabled) ∧
    (BeginsWith (bytes "DISPLAY") (line ++ 0 :: junk) →
      w1.ledEnabled = w.ledEnabled ∧ w1.ledColor = w.ledColor ∧
      w1.backlightEnabled = w.backlightEnabled ∧ w1.brightness = w.brightness) ∧
    (∀ n ∈ noArgNames, BeginsWith n (line ++ 0 :: junk) →
      w1.ledEnabled = w.ledEnabled ∧ w1.ledColor = w.ledColor ∧
      w1.backlightEnabled = w.backlightEnabled ∧ w1.brightness = w.brightness ∧
      w1.displayEnabled = w.displayEnabled) := by
  have huniq := registered_name_unique (line ++ 0 :: junk)
  have hsum := dispatch_summary line junk w w1 hl hd
  refine ⟨?_, ?_, ?_, ?_⟩
  · intro hb
    rcases hsum with ⟨_, hbl, hdp⟩ | ⟨_, ⟨_, hbl, hdp⟩ | ⟨hb2, _, _⟩ | ⟨hb2, _, _⟩⟩
    · exact ⟨congrArg Prod.fst hbl, congrArg Prod.snd hbl, hdp⟩
    · exact ⟨congrArg Prod.fst hbl, congrArg Prod.snd hbl, hdp⟩
    · exact absurd (huniq _ _ (by decide) (by decide) hb hb2) (by decide)
    · exact absurd (huniq _ _ (by decide) (by decide) hb hb2) (by decide)
  · intro hb
    rcases hsum with ⟨hled, _, hdp⟩ | ⟨_, ⟨hb2, _, _⟩ | ⟨_, hled, hdp⟩ | ⟨hb2, _, _⟩⟩
    · exact ⟨congrArg Prod.fst hled, congrArg Prod.snd hled, hdp⟩
    · exact absurd (huniq _ _ (by decide) (by decide) hb hb2) (by decide)
    · exact ⟨congrArg Prod.fst hled, congrArg Prod.snd hled, hdp⟩
    · exact absurd (huniq _ _ (by decide) (by decide) hb hb2) (by decide)
  · intro hb
    rcases hsum with ⟨hled, hbl, _⟩ | ⟨_, ⟨hb2, _, _⟩ | ⟨hb2, _, _⟩ | ⟨_, hled, hbl⟩⟩
    · exact ⟨congrArg Prod.fst hled, congrArg Prod.snd hled, congrArg Prod.fst hbl,
        congrArg Prod.snd hbl⟩
    · exact absurd (huniq _ _ (by decide) (by decide) hb hb2) (by decide)
    · exact absurd (huniq _ _ (by decide) (by decide) hb hb2) (by decide)
    · exact ⟨congrArg Prod.fst hled, congrArg Prod.snd hled, congrArg Prod.fst hbl,
        congrArg Prod.snd hbl⟩
  · intro n hn hb
    have hall : ∀ m ∈ noArgNames, m ∈ registered.map Prod.fst ∧
        m ≠ bytes "LED" ∧ m ≠ bytes "BACKLIGHT" ∧ m ≠ bytes "DISPLAY" := by
      decide
    have hreg := (hall n hn).1
    have hne := (hall n hn).2
    rcases hsum with ⟨hled, hbl, hdp⟩ | ⟨_, ⟨hb2, _, _⟩ | ⟨hb2, _, _⟩ | ⟨hb2, _, _⟩⟩
    · exact ⟨congrArg Prod.fst hled, congrArg Prod.snd hled, congrArg Prod.fst hbl,
        congrArg Prod.snd hbl, hdp⟩
    · exact absurd (huniq _ _ hreg (by decide) hb hb2) hne.1
    · exact absurd (huniq _ _ hreg (by decide) hb hb2) hne.2.1
    · exact absurd (huniq _ _ hreg (by decide) hb hb2) hne.2.2

theorem dispatch_frame_witness :
    ({ World.idle with ledEnabled := true, ops := [.ledInit], console := [bytes "OK"] } :
        World).backlightEnabled = World.idle.backlightEnabled ∧
    ({ World.idle with ledEnabled := true, ops := [.ledInit], console := [bytes "OK"] } :
        World).brightness = World.idle.brightness ∧
    ({ World.idle with ledEnabled := true, ops := [.ledInit], console := [bytes "OK"] } :
        World).displayEnabled = World.idle.displayEnabled :=
  (dispatch_frame (bytes "LED=ON") [] World.idle
    { World.idle with ledEnabled := true, ops := [.ledInit], console := [bytes "OK"] }
    (by decide) rfl).1 (by decide)

/-- The answer of `command_led` and of `command_backlight` on a present
argument does not depend on the bytes after the terminator. -/
theorem present_argument_junk (a junk : List Nat) (w : World) (h0 : 0 ∉ a) :
    command_led (some (a ++ 0 :: junk)) w = command_led (some (a ++ [0])) w ∧
    command_backlight (some (a ++ 0 :: junk)) w = command_backlight (some (a ++ [0])) w := by
  constructor
  · by_cases hon : a = bytes "ON"
    · subst hon
      rw [command_led_on junk w, command_led_on [] w]
    by_cases hoff : a = bytes "OFF"
    · subst hoff
      rw [command_led_off junk w, command_led_off [] w]
    by_cases hhex : HexForm 6 a
    · obtain ⟨ds, rfl, hlen, hds⟩ := hhex
      rw [command_led_hex ds junk w hlen hds, command_led_hex ds [] w hlen hds]
    · rw [command_led_reject a junk w h0 hon hoff hhex, command_led_reject a [] w h0 hon hoff hhex]
  · by_cases hon : a = bytes "ON"
    · subst hon
      rw [command_backlight_on junk w, command_backlight_on [] w]
    by_cases hoff : a = bytes "OFF"
    · subst hoff
      rw [command_backlight_off junk w, command_backlight_off [] w]
    by_cases hhex : HexForm 2 a
    · obtain ⟨ds, rfl, hlen, hds⟩ := hhex
      rw [command_backlight_hex ds junk w hlen hds, command_backlight_hex ds [] w hlen hds]
    · rw [command_backlight_reject a junk w h0 hon hoff hhex,
        command_backlight_reject a [] w h0 hon hoff hhex]

theorem hexChar_range_of_upper (d : Nat) (h : UpperHexDigit d) :
    0 ≤ hexChar d ∧ hexChar d ≤ 15 := by
  unfold hexChar
  unfold UpperHexDigit at h
  split_ifs <;> omega

/-- Claim C19: for a present argument whose object ends at its terminator,
`command_led` and `command_backlight` return without a fault, so neither the
comparisons nor the hexadecimal check read past the terminator, and bytes
after the terminator never change the outcome. An argument other than `ON`
and `OFF` is either rejected with `SYNTAX_ERROR` before `hexNumber` is
reached, or it is `0x` and exactly six (for the backlight, two) uppercase
hexadecimal digits; then `hexChar` is between 0 and 15 on every character
`hexNumber` reads from `input + 2`, and `hexNumber` returns their value. -/
theorem hex_validation_within_argument (a junk : List Nat) (w : World) (h0 : 0 ∉ a) :
    (∃ w1, command_led (some (a ++ [0])) w = .ok w1 ∧
      command_led (some (a ++ 0 :: junk)) w = .ok w1) ∧
    (∃ w1, command_backlight (some (a ++ [0])) w = .ok w1 ∧
      command_backlight (some (a ++ 0 :: junk)) w = .ok w1) ∧
    (a ≠ bytes "ON" → a ≠ bytes "OFF" →
      command_led (some (a ++ [0])) w =
          .ok { w with console := w.console ++ [bytes "SYNTAX_ERROR"] } ∨
      ∃ ds, a = bytes "0x" ++ ds ∧ ds.length = 6 ∧
        (∀ d ∈ ds, 0 ≤ hexChar d ∧ hexChar d ≤ 15) ∧
        hexNumber ((a ++ [0]).drop 2) = .ok (hexValue ds)) ∧
    (a ≠ bytes "ON" → a ≠ bytes "OFF" →
      command_backlight (some (a ++ [0])) w =
          .ok { w with console := w.console ++ [bytes "SYNTAX_ERROR"] } ∨
      ∃ ds, a = bytes "0x" ++ ds ∧ ds.length = 2 ∧
        (∀ d ∈ ds, 0 ≤ hexChar d ∧ hexChar d ≤ 15) ∧
        hexNumber ((a ++ [0]).drop 2) = .ok (hexValue ds)) := by
  have hjunk := present_argument_junk a junk w h0
  have hnum : ∀ (n : Nat) (ds : List Nat), n ≤ 8 → ds.length = n →
      (∀ d ∈ ds, UpperHexDigit d) →
      hexNumber ((bytes "0x" ++ ds ++ [0]).drop 2) = .ok (hexValue ds) := by
    intro n ds hn hlen hds
    have hdrop : (bytes "0x" ++ ds ++ [0]).drop 2 = ds ++ 0 :: [] := by simp [bytes]
    rw [hdrop, hexNumber_digits ds [] hds, Nat.mod_eq_of_lt]
    have h1 := hexValue_lt ds hds
    have h2 : 16 ^ ds.length ≤ 16 ^ 8 := Nat.pow_le_pow_right (by norm_num) (by omega)
    have h3 : (16 : Nat) ^ 8 = 2 ^ 32 := by norm_num
    omega
  refine ⟨?_, ?_, ?_, ?_⟩
  · obtain ⟨w1, h1, _⟩ := command_led_present a [] w h0
    exact ⟨w1, h1, hjunk.1.trans h1⟩
  · obtain ⟨w1, h1, _⟩ := command_backlight_present a [] w h0
    exact ⟨w1, h1, hjunk.2.trans h1⟩
  · intro hon hoff
    by_cases hhex : HexForm 6 a
    · right
      obtain ⟨ds, rfl, hlen, hds⟩ := hhex
      exact ⟨ds, rfl, hlen, fun d hd => hexChar_range_of_upper d (hds d hd),
        hnum 6 ds (by decide) hlen hds⟩
    · left
      exact command_led_reject a [] w h0 hon hoff hhex
  · intro hon hoff
    by_cases hhex : HexForm 2 a
    · right
      obtain ⟨ds, rfl, hlen, hds⟩ := hhex
      exact ⟨ds, rfl, hlen, fun d hd => hexChar_range_of_upper d (hds d hd),
        hnum 2 ds (by decide) hlen hds⟩
    · left
      exact command_backlight_reject a [] w h0 hon hoff hhex

theorem hex_validation_within_argument_witness :
    (∃ w1, command_led (some (bytes "0x" ++ [0])) World.idle = .ok w1 ∧
      command_led (some (bytes "0x" ++ 0 :: [1, 2, 3])) World.idle = .ok w1) ∧
    (∃ w1, command_backlight (some (bytes "" ++ [0])) World.idle = .ok w1 ∧
      command_backlight (some (bytes "" ++ 0 :: [48, 120, 70, 70, 0])) World.idle = .ok w1) ∧
    (∃ w1, command_led (some (bytes "0" ++ [0])) World.idle = .ok w1 ∧
      command_led (some (bytes "0" ++ 0 :: [120])) World.idle = .ok w1) :=
  ⟨(hex_validation_within_argument (bytes "0x") [1, 2, 3] World.idle (by decide)).1,
   (hex_validation_within_argument (bytes "") [48, 120, 70, 70, 0] World.idle (by decide)).2.1,
   (hex_validation_within_argument (bytes "0") [120] World.idle (by decide)).1⟩

/-- The handler `command_adc` on a null argument: it reads the battery voltage
once and writes `ADC=` followed by the text the formatter produced. -/
theorem command_adc_none (w : World) (h0 : 0 ∉ w.voltageText) :
    command_adc none w =
      .ok { w with ops := w.ops ++ [.batteryVoltage],
                   console := w.console ++ [bytes "ADC=" ++ w.voltageText] } := by
  have hz : 0 ∉ bytes "ADC=" ++ w.voltageText := by
    intro hmem
    rcases List.mem_append.1 hmem with h | h
    · exact absurd h (by decide)
    · exact h0 h
  have hbuf : bytes "ADC=" ++ (Ion.Battery.voltage w).1 ++ [0] =
      (bytes "ADC=" ++ w.voltageText) ++ 0 :: [] := rfl
  have hw := writeLine_cstr (bytes "ADC=" ++ w.voltageText) [] hz
    { w with ops := w.ops ++ [.batteryVoltage] }
  unfold command_adc
  simp only [Option.isSome_none, Bool.false_eq_true, if_false]
  rw [hbuf]
  exact hw

/-- Claim C7: each bare no-argument command name reaches its own handler with
a null argument and is answered with its success response. `PING` writes
`PONG`. `CHARGE` reads the charging state and writes `CHARGE=ON` when the
battery charges, `CHARGE=OFF` when not. `MCU_SERIAL` reads the NUL-terminated
serial number and writes `MCU_SERIAL=` and its first 24 characters. `ADC`
reads the battery voltage and writes `ADC=` and the NUL-free text the
formatter produced for it. `KEYBOARD`, for a key count within the reach of
its `uint8_t` counter, polls every key and writes `KEYBOARD=` and one
character per key. -/
theorem dispatch_bare_no_arg (junk : List Nat) (w : World) :
    sCommandList.dispatch (bytes "PING" ++ 0 :: junk) w = command_ping none w ∧
    command_ping none w = .ok { w with console := w.console ++ [bytes "PONG"] } ∧
    sCommandList.dispatch (bytes "MCU_SERIAL" ++ 0 :: junk) w = command_mcu_serial none w ∧
    sCommandList.dispatch (bytes "ADC" ++ 0 :: junk) w = command_adc none w ∧
    sCommandList.dispatch (bytes "CHARGE" ++ 0 :: junk) w = command_charge none w ∧
    command_charge none w =
      .ok { w with ops := w.ops ++ [.batteryIsCharging],
                   console := w.console ++
                     [if w.charging then bytes "CHARGE=ON" else bytes "CHARGE=OFF"] } ∧
    sCommandList.dispatch (bytes "KEYBOARD" ++ 0 :: junk) w = command_keyboard none w ∧
    (∀ s sjunk : List Nat, 0 ∉ s → w.serial = s ++ 0 :: sjunk →
      sCommandList.dispatch (bytes "MCU_SERIAL" ++ 0 :: junk) w =
        .ok { w with ops := w.ops ++ [.serialNumber],
                     console := w.console ++ [bytes "MCU_SERIAL=" ++ s.take 24] }) ∧
    (0 ∉ w.voltageText →
      sCommandList.dispatch (bytes "ADC" ++ 0 :: junk) w =
        .ok { w with ops := w.ops ++ [.batteryVoltage],
                     console := w.console ++ [bytes "ADC=" ++ w.voltageText] }) ∧
    (w.NumberOfKeys ≤ 255 →
      sCommandList.dispatch (bytes "KEYBOARD" ++ 0 :: junk) w =
        .ok { w with ops := w.ops ++ (List.range w.NumberOfKeys).map Op.keyDown,
                     console := w.console ++ [bytes "KEYBOARD=" ++ keyBits w] }) := by
  have hmcu : sCommandList.dispatch (bytes "MCU_SERIAL" ++ 0 :: junk) w =
      command_mcu_serial none w := by
    refine (dispatch_at_first_match (registered.take 1) (registered.drop 2) (bytes "MCU_SERIAL")
      command_mcu_serial (bytes "MCU_SERIAL") junk w (by simp [registered, bytes, BeginsWith])
      (by decide) (by simp [bytes, BeginsWith])).trans ?_
    simp [bytes]
  have hadc : sCommandList.dispatch (bytes "ADC" ++ 0 :: junk) w = command_adc none w := by
    refine (dispatch_at_first_match (registered.take 4) (registered.drop 5) (bytes "ADC")
      command_adc (bytes "ADC") junk w (by simp [registered, bytes, BeginsWith])
      (by decide) (by simp [bytes, BeginsWith])).trans ?_
    simp [bytes]
  have hkbd : sCommandList.dispatch (bytes "KEYBOARD" ++ 0 :: junk) w =
      command_keyboard none w := by
    refine (dispatch_at_first_match (registered.take 6) (registered.drop 7) (bytes "KEYBOARD")
      command_keyboard (bytes "KEYBOARD") junk w (by simp [registered, bytes, BeginsWith])
      (by decide) (by simp [bytes, BeginsWith])).trans ?_
    simp [bytes]
  refine ⟨?_, ?_, hmcu, hadc, ?_, ?_, hkbd, ?_, ?_, ?_⟩
  · refine (dispatch_at_first_match [] (registered.drop 1) (bytes "PING") command_ping
      (bytes "PING") junk w (by simp) (by decide) (by simp [bytes, BeginsWith])).trans ?_
    simp [bytes]
  · simp [command_ping, writeLine_lit "PONG" (by decide) w]
  · refine (dispatch_at_first_match (registered.take 5) (registered.drop 6) (bytes "CHARGE")
      command_charge (bytes "CHARGE") junk w (by simp [registered, bytes, BeginsWith])
      (by decide) (by simp [bytes, BeginsWith])).trans ?_
    simp [bytes]
  · cases hc : w.charging
    · simp [command_charge, Ion.Battery.isCharging, hc, writeLine_lit "CHARGE=OFF" (by decide)]
    · simp [command_charge, Ion.Battery.isCharging, hc, writeLine_lit "CHARGE=ON" (by decide)]
  · intro s sjunk h0 hs
    exact hmcu.trans (command_mcu_serial_none s sjunk w h0 hs)
  · intro h0
    exact hadc.trans (command_adc_none w h0)
  · intro hN
    exact hkbd.trans (command_keyboard_none w hN)

theorem dispatch_bare_no_arg_witness :
    sCommandList.dispatch (bytes "MCU_SERIAL" ++ 0 :: []) World.idle =
      .ok { World.idle with
            ops := World.idle.ops ++ [.serialNumber],
            console := World.idle.console ++
              [bytes "MCU_SERIAL=" ++ (bytes "0123456789ABCDEF01234567").take 24] } ∧
    sCommandList.dispatch (bytes "ADC" ++ 0 :: []) World.idle =
      .ok { World.idle with
            ops := World.idle.ops ++ [.batteryVoltage],
            console := World.idle.console ++ [bytes "ADC=" ++ World.idle.voltageText] } ∧
    sCommandList.dispatch (bytes "KEYBOARD" ++ 0 :: []) World.idle =
      .ok { World.idle with
            ops := World.idle.ops ++ (List.range World.idle.NumberOfKeys).map Op.keyDown,
            console := World.idle.console ++ [bytes "KEYBOARD=" ++ keyBits World.idle] } :=
  ⟨(dispatch_bare_no_arg [] World.idle).2.2.2.2.2.2.2.1
      (bytes "0123456789ABCDEF01234567") [] (by decide) rfl,
   (dispatch_bare_no_arg [] World.idle).2.2.2.2.2.2.2.2.1 (by decide),
   (dispatch_bare_no_arg [] World.idle).2.2.2.2.2.2.2.2.2 (by decide)⟩

end Hwtest
